import Mathlib

/-!
# Verification of the chart-pattern detection engine

A shallow embedding in Lean 4 of `services/pattern_detector.py` and the
`DetectedPattern` data model of `models/technicals.py` from the
market-analysis repository.  Prices are modelled as rational numbers; the
OHLCV window is a structure holding the four price arrays (total functions
from bar index) together with the bar count `n`.  Each Python detector
method becomes a Lean function on `Window`; numpy constructs
(`argrelextrema`, `argmin`, `argmax`, `polyfit`, slicing) are translated
into explicit list computations.  Dates are modelled by bar indices (the
source converts an index to a date through a positionally aligned list).
-/

/-- `PatternType` enumeration from `models/technicals.py`. -/
inductive PatternType where
  | double_top
  | double_bottom
  | head_and_shoulders
  | inverse_head_and_shoulders
  | bull_flag
  | bear_flag
  | ascending_triangle
  | descending_triangle
  | symmetrical_triangle
  | rising_wedge
  | falling_wedge
  | pennant
  | cup_and_handle
  deriving DecidableEq, Repr

/-- `SignalDirection` enumeration from `models/technicals.py`. -/
inductive SignalDirection where
  | bullish
  | bearish
  | neutral
  deriving DecidableEq, Repr

/-- `PatternStatus` enumeration from `models/technicals.py`. -/
inductive PatternStatus where
  | forming
  | confirmed
  | failed
  deriving DecidableEq, Repr

/-- `DetectedPattern` record from `models/technicals.py`; dates are bar
indices, `key_levels` is an association list of named price levels. -/
structure DetectedPattern where
  pattern_type : PatternType
  direction : SignalDirection
  confidence : ℚ
  start_date : ℕ
  end_date : ℕ
  key_levels : List (String × ℚ)
  status : PatternStatus
  deriving DecidableEq, Repr

/-- The OHLCV window held by a `PatternDetector` instance after `__init__`:
the four aligned arrays (as total functions of the bar index) and the bar
count `self.n`. -/
structure Window where
  n : ℕ
  close : ℕ → ℚ
  high : ℕ → ℚ
  low : ℕ → ℚ
  volume : ℕ → ℚ

/-- Minimum of a list of rationals (`np.min`); 0 on the empty list, which
never arises in the translated call sites. -/
def minL : List ℚ → ℚ
  | [] => 0
  | [a] => a
  | a :: b :: r => min a (minL (b :: r))

/-- Maximum of a list of rationals (`np.max`); 0 on the empty list. -/
def maxL : List ℚ → ℚ
  | [] => 0
  | [a] => a
  | a :: b :: r => max a (maxL (b :: r))

/-- First index attaining the minimum (`np.argmin` tie-break). -/
def argminL : List ℚ → ℕ
  | [] => 0
  | [_] => 0
  | a :: b :: r => if a ≤ minL (b :: r) then 0 else argminL (b :: r) + 1

/-- First index attaining the maximum (`np.argmax` tie-break). -/
def argmaxL : List ℚ → ℕ
  | [] => 0
  | [_] => 0
  | a :: b :: r => if maxL (b :: r) ≤ a then 0 else argmaxL (b :: r) + 1

/-- Sum of a list of rationals (`np.sum`). -/
def sumL (l : List ℚ) : ℚ := l.sum

/-- Arithmetic mean of a list of rationals (`np.mean`). -/
def avgL (l : List ℚ) : ℚ := sumL l / (l.length : ℚ)

/-- The inclusive index range `[lo..hi]` as a list (empty when `hi < lo`). -/
def rangeIncl (lo hi : ℕ) : List ℕ := List.range' lo (hi + 1 - lo)

/-- Values of `f` on the inclusive index range `[lo..hi]`
(the Python slice `f[lo:hi+1]`). -/
def sliceIncl (f : ℕ → ℚ) (lo hi : ℕ) : List ℚ := (rangeIncl lo hi).map f

/-- `np.min(f[lo:hi+1])`. -/
def rmin (f : ℕ → ℚ) (lo hi : ℕ) : ℚ := minL (sliceIncl f lo hi)

/-- `np.max(f[lo:hi+1])`. -/
def rmax (f : ℕ → ℚ) (lo hi : ℕ) : ℚ := maxL (sliceIncl f lo hi)

/-- Python's `round(x, 1)` on the rational model. -/
def round1 (q : ℚ) : ℚ := (round (q * 10) : ℤ) / 10

/-- Python's `round(x, 2)` on the rational model. -/
def round2 (q : ℚ) : ℚ := (round (q * 100) : ℤ) / 100

/-- One comparison step of `scipy.signal.argrelextrema(high, np.greater_equal,
order)` with the default `clip` boundary mode: bar `i` dominates (≥) the bars
`i ± s` for every shift `s` in `1..order`, indices clipped into `[0, n-1]`
(natural subtraction already clips at 0). -/
def relMaxCheck (f : ℕ → ℚ) (n order i : ℕ) : Bool :=
  (List.range' 1 order).all fun s =>
    decide (f (min (i + s) (n - 1)) ≤ f i) && decide (f (i - s) ≤ f i)

/-- `argrelextrema(low, np.less_equal, order)` comparison step. -/
def relMinCheck (f : ℕ → ℚ) (n order i : ℕ) : Bool :=
  (List.range' 1 order).all fun s =>
    decide (f i ≤ f (min (i + s) (n - 1))) && decide (f i ≤ f (i - s))

/-- `self.pivot_high_idx` computed by `_find_pivots` (order 5): empty when
`n < 2*order + 1`, otherwise the indices passing the `argrelextrema`
greater-equal test. -/
def pivotHighIdx (w : Window) : List ℕ :=
  if w.n < 5 * 2 + 1 then []
  else (List.range w.n).filter fun i => relMaxCheck w.high w.n 5 i

/-- `self.pivot_low_idx` computed by `_find_pivots` (order 5). -/
def pivotLowIdx (w : Window) : List ℕ :=
  if w.n < 5 * 2 + 1 then []
  else (List.range w.n).filter fun i => relMinCheck w.low w.n 5 i

/-- `self.pivot_highs = self.high[self.pivot_high_idx]`. -/
def pivotHighs (w : Window) : List ℚ := (pivotHighIdx w).map w.high

/-- `self.pivot_lows = self.low[self.pivot_low_idx]`. -/
def pivotLows (w : Window) : List ℚ := (pivotLowIdx w).map w.low

/-- Sum of first coordinates of an (index, price) point list. -/
def sX (pts : List (ℚ × ℚ)) : ℚ := (pts.map Prod.fst).sum

/-- Sum of second coordinates. -/
def sY (pts : List (ℚ × ℚ)) : ℚ := (pts.map Prod.snd).sum

/-- Sum of squared first coordinates. -/
def sXX (pts : List (ℚ × ℚ)) : ℚ := (pts.map fun p => p.1 * p.1).sum

/-- Sum of coordinate products. -/
def sXY (pts : List (ℚ × ℚ)) : ℚ := (pts.map fun p => p.1 * p.2).sum

/-- Determinant `n·Σx² - (Σx)²` of the least-squares normal equations. -/
def lsqDet (pts : List (ℚ × ℚ)) : ℚ :=
  (pts.length : ℚ) * sXX pts - sX pts * sX pts

/-- `_fit_trendline`: with fewer than 2 points return
`(0, prices[0] if len(prices) > 0 else 0)`; otherwise the degree-1
`np.polyfit` least-squares solution, written in normal-equation closed form. -/
def fitTrendline (pts : List (ℚ × ℚ)) : ℚ × ℚ :=
  if pts.length < 2 then (0, (pts.headD (0, 0)).2)
  else
    let slope := ((pts.length : ℚ) * sXY pts - sX pts * sY pts) / lsqDet pts
    (slope, (sY pts - slope * sX pts) / (pts.length : ℚ))

/-- Sum of squared vertical residuals of the line `y = m·x + b` over a point
list: the objective that `np.polyfit(_, _, 1)` minimizes. -/
def sse (pts : List (ℚ × ℚ)) (m b : ℚ) : ℚ :=
  (pts.map fun p => (p.2 - (m * p.1 + b)) ^ 2).sum

/-- All ordered pairs `(l[i], l[j])` with `i < j`, in the enumeration order
of the Python double loop `for i in range(len-1): for j in range(i+1, len)`. -/
def upairs {α : Type} : List α → List (α × α)
  | [] => []
  | a :: r => r.map (fun b => (a, b)) ++ upairs r

/-- All consecutive triples `(l[i], l[i+1], l[i+2])`, in the order of the
Python loop `for i in range(len - 2)`. -/
def triples {α : Type} : List α → List (α × α × α)
  | a :: b :: c :: r => (a, b, c) :: triples (b :: c :: r)
  | _ => []

/-- Double top neckline: lowest low between the two peak indices
(`np.argmin` over `low[idx1:idx2+1]`, then reading `low` there). -/
def dtNeckline (w : Window) (i j : ℕ) : ℚ := rmin w.low i j

/-- Average of the two candidate peaks. -/
def dtAvgPeak (w : Window) (i j : ℕ) : ℚ := (w.high i + w.high j) / 2

/-- `np.any(self.close[idx2:] < neckline)` guarded by a nonempty slice. -/
def dtBroke (w : Window) (i j : ℕ) : Bool :=
  (List.range' j (w.n - j)).any fun k => decide (w.close k < dtNeckline w i j)

/-- Double top confidence before rounding: symmetry and trough depth
sub-scores, 50 points each, clamped to 100. -/
def dtConfidence (w : Window) (i j : ℕ) : ℚ :=
  min ((1 - |w.high i - w.high j| / max (w.high i) (w.high j) / (3 / 100)) * 50
      + min ((dtAvgPeak w i j - dtNeckline w i j) / dtAvgPeak w i j / (10 / 100)) 1 * 50)
    100

/-- The `DetectedPattern` record appended by `_detect_double_top`. -/
def dtPattern (w : Window) (i j : ℕ) : DetectedPattern :=
  { pattern_type := .double_top
    direction := .bearish
    confidence := round1 (dtConfidence w i j)
    start_date := i
    end_date := min (j + 5) (w.n - 1)
    key_levels := [("resistance", round2 (dtAvgPeak w i j)),
                   ("neckline", round2 (dtNeckline w i j)),
                   ("target", round2 (dtNeckline w i j - (dtAvgPeak w i j - dtNeckline w i j)))]
    status := if dtBroke w i j then .confirmed else .forming }

/-- One iteration of the `_detect_double_top` inner loop: the three `continue`
filters, then the appended record. -/
def mkDoubleTop (w : Window) (i j : ℕ) : Option DetectedPattern :=
  if |w.high i - w.high j| / max (w.high i) (w.high j) > 3 / 100 then none
  else if j - i < 10 then none
  else if (dtAvgPeak w i j - dtNeckline w i j) / dtAvgPeak w i j < 2 / 100 then none
  else some (dtPattern w i j)

/-- The `results` list built by `_detect_double_top` before truncation. -/
def doubleTopCandidates (w : Window) : List DetectedPattern :=
  if (pivotHighIdx w).length < 2 then []
  else (upairs (pivotHighIdx w)).filterMap fun p => mkDoubleTop w p.1 p.2

/-- `_detect_double_top`: at most the first 3 candidates (`results[:3]`). -/
def detectDoubleTop (w : Window) : List DetectedPattern :=
  (doubleTopCandidates w).take 3

/-- Double bottom neckline: highest high between the two trough indices. -/
def dbNeckline (w : Window) (i j : ℕ) : ℚ := rmax w.high i j

/-- Average of the two candidate troughs. -/
def dbAvgTrough (w : Window) (i j : ℕ) : ℚ := (w.low i + w.low j) / 2

/-- `np.any(self.close[idx2:] > neckline)`. -/
def dbBroke (w : Window) (i j : ℕ) : Bool :=
  (List.range' j (w.n - j)).any fun k => decide (dbNeckline w i j < w.close k)

/-- Double bottom confidence before rounding. -/
def dbConfidence (w : Window) (i j : ℕ) : ℚ :=
  min ((1 - |w.low i - w.low j| / max (w.low i) (w.low j) / (3 / 100)) * 50
      + min ((dbNeckline w i j - dbAvgTrough w i j) / dbNeckline w i j / (10 / 100)) 1 * 50)
    100

/-- The record appended by `_detect_double_bottom`. -/
def dbPattern (w : Window) (i j : ℕ) : DetectedPattern :=
  { pattern_type := .double_bottom
    direction := .bullish
    confidence := round1 (dbConfidence w i j)
    start_date := i
    end_date := min (j + 5) (w.n - 1)
    key_levels := [("support", round2 (dbAvgTrough w i j)),
                   ("neckline", round2 (dbNeckline w i j)),
                   ("target", round2 (dbNeckline w i j + (dbNeckline w i j - dbAvgTrough w i j)))]
    status := if dbBroke w i j then .confirmed else .forming }

/-- One iteration of the `_detect_double_bottom` inner loop. -/
def mkDoubleBottom (w : Window) (i j : ℕ) : Option DetectedPattern :=
  if |w.low i - w.low j| / max (w.low i) (w.low j) > 3 / 100 then none
  else if j - i < 10 then none
  else if (dbNeckline w i j - dbAvgTrough w i j) / dbNeckline w i j < 2 / 100 then none
  else some (dbPattern w i j)

/-- The `results` list built by `_detect_double_bottom`. -/
def doubleBottomCandidates (w : Window) : List DetectedPattern :=
  if (pivotLowIdx w).length < 2 then []
  else (upairs (pivotLowIdx w)).filterMap fun p => mkDoubleBottom w p.1 p.2

/-- `_detect_double_bottom`: `results[:3]`. -/
def detectDoubleBottom (w : Window) : List DetectedPattern :=
  (doubleBottomCandidates w).take 3

/-- Head-and-shoulders neckline: mean of the lowest lows of the two
inter-shoulder regions. -/
def hsNeckline (w : Window) (a b c : ℕ) : ℚ :=
  (rmin w.low a b + rmin w.low b c) / 2

/-- `np.any(self.close[idx_rs:] < neckline)`. -/
def hsBroke (w : Window) (a b c : ℕ) : Bool :=
  (List.range' c (w.n - c)).any fun k => decide (w.close k < hsNeckline w a b c)

/-- Head-and-shoulders confidence before rounding: shoulder symmetry and head
prominence, 40 points each, plus a constant 20. -/
def hsConfidence (w : Window) (a b c : ℕ) : ℚ :=
  min ((1 - |w.high a - w.high c| / max (w.high a) (w.high c) / (5 / 100)) * 40
      + min ((w.high b - (w.high a + w.high c) / 2) / w.high b / (5 / 100)) 1 * 40 + 20)
    100

/-- The record appended by `_detect_head_and_shoulders`. -/
def hsPattern (w : Window) (a b c : ℕ) : DetectedPattern :=
  { pattern_type := .head_and_shoulders
    direction := .bearish
    confidence := round1 (hsConfidence w a b c)
    start_date := a
    end_date := min (c + 5) (w.n - 1)
    key_levels := [("left_shoulder", round2 (w.high a)), ("head", round2 (w.high b)),
                   ("right_shoulder", round2 (w.high c)),
                   ("neckline", round2 (hsNeckline w a b c)),
                   ("target", round2 (hsNeckline w a b c - (w.high b - hsNeckline w a b c)))]
    status := if hsBroke w a b c then .confirmed else .forming }

/-- One iteration of the `_detect_head_and_shoulders` loop over consecutive
pivot-high triples. -/
def mkHeadShoulders (w : Window) (a b c : ℕ) : Option DetectedPattern :=
  if w.high b ≤ w.high a ∨ w.high b ≤ w.high c then none
  else if |w.high a - w.high c| / max (w.high a) (w.high c) > 5 / 100 then none
  else if (w.high b - (w.high a + w.high c) / 2) / w.high b < 2 / 100 then none
  else some (hsPattern w a b c)

/-- The `results` list built by `_detect_head_and_shoulders`. -/
def headShouldersCandidates (w : Window) : List DetectedPattern :=
  if (pivotHighIdx w).length < 3 then []
  else (triples (pivotHighIdx w)).filterMap fun t => mkHeadShoulders w t.1 t.2.1 t.2.2

/-- `_detect_head_and_shoulders`: `results[:2]`. -/
def detectHeadShoulders (w : Window) : List DetectedPattern :=
  (headShouldersCandidates w).take 2

/-- Inverse head-and-shoulders neckline: mean of the highest highs of the two
inter-shoulder regions. -/
def ihsNeckline (w : Window) (a b c : ℕ) : ℚ :=
  (rmax w.high a b + rmax w.high b c) / 2

/-- `np.any(self.close[idx_rs:] > neckline)`. -/
def ihsBroke (w : Window) (a b c : ℕ) : Bool :=
  (List.range' c (w.n - c)).any fun k => decide (ihsNeckline w a b c < w.close k)

/-- Inverse head-and-shoulders confidence before rounding. -/
def ihsConfidence (w : Window) (a b c : ℕ) : ℚ :=
  min ((1 - |w.low a - w.low c| / max (w.low a) (w.low c) / (5 / 100)) * 40
      + min (((w.low a + w.low c) / 2 - w.low b) / ((w.low a + w.low c) / 2) / (5 / 100)) 1 * 40
      + 20)
    100

/-- The record appended by `_detect_inverse_head_and_shoulders`. -/
def ihsPattern (w : Window) (a b c : ℕ) : DetectedPattern :=
  { pattern_type := .inverse_head_and_shoulders
    direction := .bullish
    confidence := round1 (ihsConfidence w a b c)
    start_date := a
    end_date := min (c + 5) (w.n - 1)
    key_levels := [("left_shoulder", round2 (w.low a)), ("head", round2 (w.low b)),
                   ("right_shoulder", round2 (w.low c)),
                   ("neckline", round2 (ihsNeckline w a b c)),
                   ("target", round2 (ihsNeckline w a b c + (ihsNeckline w a b c - w.low b)))]
    status := if ihsBroke w a b c then .confirmed else .forming }

/-- One iteration of the `_detect_inverse_head_and_shoulders` loop. -/
def mkInverseHeadShoulders (w : Window) (a b c : ℕ) : Option DetectedPattern :=
  if w.low a ≤ w.low b ∨ w.low c ≤ w.low b then none
  else if |w.low a - w.low c| / max (w.low a) (w.low c) > 5 / 100 then none
  else if ((w.low a + w.low c) / 2 - w.low b) / ((w.low a + w.low c) / 2) < 2 / 100 then none
  else some (ihsPattern w a b c)

/-- The `results` list built by `_detect_inverse_head_and_shoulders`. -/
def inverseHeadShouldersCandidates (w : Window) : List DetectedPattern :=
  if (pivotLowIdx w).length < 3 then []
  else (triples (pivotLowIdx w)).filterMap fun t => mkInverseHeadShoulders w t.1 t.2.1 t.2.2

/-- `_detect_inverse_head_and_shoulders`: `results[:2]`. -/
def detectInverseHeadShoulders (w : Window) : List DetectedPattern :=
  (inverseHeadShouldersCandidates w).take 2

/-- Descending-by-confidence comparison used as the key of
`results.sort(key=lambda x: x.confidence, reverse=True)`. -/
def confGE (a b : DetectedPattern) : Prop := b.confidence ≤ a.confidence

instance : DecidableRel confGE :=
  fun a b => inferInstanceAs (Decidable (b.confidence ≤ a.confidence))

instance : IsTotal DetectedPattern confGE :=
  ⟨fun a b => le_total b.confidence a.confidence⟩

instance : IsTrans DetectedPattern confGE :=
  ⟨fun _ _ _ h1 h2 => le_trans h2 h1⟩

/-- `pole_height = abs(self.close[pole_end] - self.close[pole_start])`. -/
def poleHeight (w : Window) (ps pe : ℕ) : ℚ := |w.close pe - w.close ps|

/-- `pole_move = (close[pole_end] - close[pole_start]) / close[pole_start]`. -/
def poleMove (w : Window) (ps pe : ℕ) : ℚ := (w.close pe - w.close ps) / w.close ps

/-- `flag_end = min(pole_end + max_flag_bars, self.n - 1)`. -/
def flagEnd (w : Window) (pe : ℕ) : ℕ := min (pe + 25) (w.n - 1)

/-- `flag_range`: high-low extent of the consolidation region. -/
def flagRange (w : Window) (pe : ℕ) : ℚ :=
  rmax w.high pe (flagEnd w pe) - rmin w.low pe (flagEnd w pe)

/-- `np.polyfit(range(len(flag_region)), flag_region, 1)[0]`. -/
def flagSlope (w : Window) (pe : ℕ) : ℚ :=
  (fitTrendline ((List.range (flagEnd w pe + 1 - pe)).map
    fun (k : ℕ) => ((k : ℚ), w.close (pe + k)))).1

/-- `flag_vol_avg < pole_vol_avg`. -/
def flagVolDecrease (w : Window) (ps pe : ℕ) : Bool :=
  decide (avgL (sliceIncl w.volume pe (flagEnd w pe)) < avgL (sliceIncl w.volume ps pe))

/-- Flag confidence before rounding: consolidation tightness, pole strength
and volume behaviour, clamped to 100. -/
def flagConfidence (w : Window) (ps pe : ℕ) : ℚ :=
  min ((1 - min (flagRange w pe / poleHeight w ps pe / (1 / 2)) 1) * 30
      + min (|poleMove w ps pe| / (5 / 100) / 2) 1 * 40
      + (if flagVolDecrease w ps pe then (8 : ℚ) / 10 else 4 / 10) * 30)
    100

/-- The record appended by `_detect_flag`. -/
def flagPattern (w : Window) (bullish : Bool) (ps pe : ℕ) : DetectedPattern :=
  { pattern_type := if bullish then .bull_flag else .bear_flag
    direction := if bullish then .bullish else .bearish
    confidence := round1 (flagConfidence w ps pe)
    start_date := ps
    end_date := flagEnd w pe
    key_levels := [("pole_start", round2 (w.close ps)),
                   ("pole_end", round2 (w.close pe)),
                   ("flag_high", round2 (rmax w.high pe (flagEnd w pe))),
                   ("flag_low", round2 (rmin w.low pe (flagEnd w pe))),
                   ("target", round2 (if bullish then w.close (flagEnd w pe) + poleHeight w ps pe
                                      else w.close (flagEnd w pe) - poleHeight w ps pe))]
    status := .forming }

/-- One iteration of the `_detect_flag` inner loop: the `continue` filters in
source order, then the appended record. -/
def checkFlag (w : Window) (bullish : Bool) (ps pe : ℕ) : Option DetectedPattern :=
  if bullish ∧ poleMove w ps pe < 5 / 100 then none
  else if ¬bullish ∧ poleMove w ps pe > -(5 / 100) then none
  else if flagEnd w pe + 1 - pe < 5 then none
  else if poleHeight w ps pe = 0 then none
  else if flagRange w pe / poleHeight w ps pe > 1 / 2 then none
  else if bullish ∧ flagSlope w pe > 0 then none
  else if ¬bullish ∧ flagSlope w pe < 0 then none
  else if flagConfidence w ps pe < 40 then none
  else some (flagPattern w bullish ps pe)

/-- The `results` list built by `_detect_flag`: the outer loop steps
`pole_start` by 3, the inner loop `break`s at the first accepted `pole_end`. -/
def flagCandidates (w : Window) (bullish : Bool) : List DetectedPattern :=
  (List.range' 0 ((w.n - 10 + 2) / 3) 3).filterMap fun ps =>
    (List.range' (ps + 5) (min (ps + 30) (w.n - 5) - (ps + 5))).findSome?
      (checkFlag w bullish ps)

/-- `_detect_flag`: sort by confidence descending, return `results[:3]`. -/
def detectFlag (w : Window) (bullish : Bool) : List DetectedPattern :=
  (List.insertionSort confGE (flagCandidates w bullish)).take 3

/-- `_detect_bull_flag`. -/
def detectBullFlag (w : Window) : List DetectedPattern := detectFlag w true

/-- `_detect_bear_flag`. -/
def detectBearFlag (w : Window) : List DetectedPattern := detectFlag w false

/-- `price_range = np.max(self.high) - np.min(self.low)`. -/
def priceRange (w : Window) : ℚ := rmax w.high 0 (w.n - 1) - rmin w.low 0 (w.n - 1)

/-- Resistance trendline slope: `_fit_trendline(pivot_high_idx, pivot_highs)`. -/
def resSlope (w : Window) : ℚ :=
  (fitTrendline ((pivotHighIdx w).map fun (i : ℕ) => ((i : ℚ), w.high i))).1

/-- Support trendline slope: `_fit_trendline(pivot_low_idx, pivot_lows)`. -/
def supSlope (w : Window) : ℚ :=
  (fitTrendline ((pivotLowIdx w).map fun (i : ℕ) => ((i : ℚ), w.low i))).1

/-- `res_slope_norm = res_slope / price_range * self.n`. -/
def resSlopeNorm (w : Window) : ℚ := resSlope w / priceRange w * w.n

/-- `sup_slope_norm = sup_slope / price_range * self.n`. -/
def supSlopeNorm (w : Window) : ℚ := supSlope w / priceRange w * w.n

/-- Last `k` entries of a list (the Python slice `l[-k:]`). -/
def lastK {α : Type} (l : List α) (k : ℕ) : List α := l.drop (l.length - k)

/-- Ascending-triangle resistance level: mean of the last three pivot highs
when available, otherwise of them all. -/
def ascResistance (w : Window) : ℚ :=
  if (pivotHighs w).length ≥ 3 then avgL (lastK (pivotHighs w) 3) else avgL (pivotHighs w)

/-- `support_current`: last pivot low, falling back to the window minimum. -/
def ascSupportCurrent (w : Window) : ℚ :=
  (pivotLows w).getLastD (rmin w.low 0 (w.n - 1))

/-- Ascending-triangle confidence before rounding: resistance flatness,
support rise and touch counts. -/
def ascConfidence (w : Window) : ℚ :=
  min (max 0 (1 - |resSlopeNorm w| / (15 / 100)) * 30
      + min (supSlopeNorm w / (15 / 100)) 1 * 30
      + (min (pivotHighIdx w).length 4 : ℚ) / 4 * 20
      + (min (pivotLowIdx w).length 4 : ℚ) / 4 * 20)
    100

/-- The record appended by `_detect_ascending_triangle`. -/
def ascPattern (w : Window) : DetectedPattern :=
  { pattern_type := .ascending_triangle
    direction := .bullish
    confidence := round1 (ascConfidence w)
    start_date := min ((pivotHighIdx w).headD 0) ((pivotLowIdx w).headD 0)
    end_date := w.n - 1
    key_levels := [("resistance", round2 (ascResistance w)),
                   ("support", round2 (ascSupportCurrent w)),
                   ("target", round2 (ascResistance w + (ascResistance w - ascSupportCurrent w)))]
    status := .forming }

/-- `_detect_ascending_triangle`. -/
def detectAscendingTriangle (w : Window) : List DetectedPattern :=
  if (pivotHighIdx w).length < 2 ∨ (pivotLowIdx w).length < 2 then []
  else if priceRange w = 0 then []
  else if |resSlopeNorm w| < 15 / 100 ∧ supSlopeNorm w > 5 / 100 then
    if ascConfidence w ≥ 40 then [ascPattern w] else []
  else []

/-- Descending-triangle support level: mean of the last three pivot lows when
available. -/
def descSupport (w : Window) : ℚ :=
  if (pivotLows w).length ≥ 3 then avgL (lastK (pivotLows w) 3) else avgL (pivotLows w)

/-- `resistance_current`: last pivot high, falling back to the window max. -/
def descResistanceCurrent (w : Window) : ℚ :=
  (pivotHighs w).getLastD (rmax w.high 0 (w.n - 1))

/-- Descending-triangle confidence before rounding. -/
def descConfidence (w : Window) : ℚ :=
  min (max 0 (1 - |supSlopeNorm w| / (15 / 100)) * 30
      + min (|resSlopeNorm w| / (15 / 100)) 1 * 30
      + (min ((pivotHighIdx w).length + (pivotLowIdx w).length) 8 : ℚ) / 8 * 40)
    100

/-- The record appended by `_detect_descending_triangle`. -/
def descPattern (w : Window) : DetectedPattern :=
  { pattern_type := .descending_triangle
    direction := .bearish
    confidence := round1 (descConfidence w)
    start_date := min ((pivotHighIdx w).headD 0) ((pivotLowIdx w).headD 0)
    end_date := w.n - 1
    key_levels := [("support", round2 (descSupport w)),
                   ("resistance", round2 (descResistanceCurrent w)),
                   ("target", round2 (descSupport w - (descResistanceCurrent w - descSupport w)))]
    status := .forming }

/-- `_detect_descending_triangle`. -/
def detectDescendingTriangle (w : Window) : List DetectedPattern :=
  if (pivotHighIdx w).length < 2 ∨ (pivotLowIdx w).length < 2 then []
  else if priceRange w = 0 then []
  else if resSlopeNorm w < -(5 / 100) ∧ |supSlopeNorm w| < 15 / 100 then
    if descConfidence w ≥ 40 then [descPattern w] else []
  else []

/-- Symmetrical-triangle confidence before rounding. -/
def symConfidence (w : Window) : ℚ :=
  min (min (|resSlopeNorm w| + |supSlopeNorm w|) 1 * 40
      + (min ((pivotHighIdx w).length + (pivotLowIdx w).length) 8 : ℚ) / 8 * 40
      + max 0 (1 - |(|resSlopeNorm w| - |supSlopeNorm w|)| / (2 / 10)) * 20)
    100

/-- The record appended by `_detect_symmetrical_triangle`. -/
def symPattern (w : Window) : DetectedPattern :=
  { pattern_type := .symmetrical_triangle
    direction := .neutral
    confidence := round1 (symConfidence w)
    start_date := min ((pivotHighIdx w).headD 0) ((pivotLowIdx w).headD 0)
    end_date := w.n - 1
    key_levels := [("resistance", round2 ((pivotHighs w).getLastD 0)),
                   ("support", round2 ((pivotLows w).getLastD 0))]
    status := .forming }

/-- `_detect_symmetrical_triangle`. -/
def detectSymmetricalTriangle (w : Window) : List DetectedPattern :=
  if (pivotHighIdx w).length < 2 ∨ (pivotLowIdx w).length < 2 then []
  else if priceRange w = 0 then []
  else if resSlopeNorm w < -(5 / 100) ∧ supSlopeNorm w > 5 / 100 then
    if symConfidence w ≥ 40 then [symPattern w] else []
  else []

/-- Rising-wedge confidence before rounding. -/
def risingWedgeConfidence (w : Window) : ℚ :=
  min (min ((resSlopeNorm w + supSlopeNorm w) / (2 / 10)) 1 * 40
      + min ((supSlopeNorm w - resSlopeNorm w) / (1 / 10)) 1 * 30
      + (min ((pivotHighIdx w).length + (pivotLowIdx w).length) 6 : ℚ) / 6 * 30)
    100

/-- The record appended by `_detect_rising_wedge`. -/
def risingWedgePattern (w : Window) : DetectedPattern :=
  { pattern_type := .rising_wedge
    direction := .bearish
    confidence := round1 (risingWedgeConfidence w)
    start_date := min ((pivotHighIdx w).headD 0) ((pivotLowIdx w).headD 0)
    end_date := w.n - 1
    key_levels := [("resistance", round2 ((pivotHighs w).getLastD 0)),
                   ("support", round2 ((pivotLows w).getLastD 0))]
    status := .forming }

/-- `_detect_rising_wedge`. -/
def detectRisingWedge (w : Window) : List DetectedPattern :=
  if (pivotHighIdx w).length < 2 ∨ (pivotLowIdx w).length < 2 then []
  else if priceRange w = 0 then []
  else if resSlopeNorm w > 3 / 100 ∧ supSlopeNorm w > 3 / 100
      ∧ supSlopeNorm w > resSlopeNorm w then
    if risingWedgeConfidence w ≥ 40 then [risingWedgePattern w] else []
  else []

/-- Falling-wedge confidence before rounding. -/
def fallingWedgeConfidence (w : Window) : ℚ :=
  min (min ((|resSlopeNorm w| + |supSlopeNorm w|) / (2 / 10)) 1 * 40
      + min ((|resSlopeNorm w| - |supSlopeNorm w|) / (1 / 10)) 1 * 30
      + (min ((pivotHighIdx w).length + (pivotLowIdx w).length) 6 : ℚ) / 6 * 30)
    100

/-- The record appended by `_detect_falling_wedge`. -/
def fallingWedgePattern (w : Window) : DetectedPattern :=
  { pattern_type := .falling_wedge
    direction := .bullish
    confidence := round1 (fallingWedgeConfidence w)
    start_date := min ((pivotHighIdx w).headD 0) ((pivotLowIdx w).headD 0)
    end_date := w.n - 1
    key_levels := [("resistance", round2 ((pivotHighs w).getLastD 0)),
                   ("support", round2 ((pivotLows w).getLastD 0))]
    status := .forming }

/-- `_detect_falling_wedge`. -/
def detectFallingWedge (w : Window) : List DetectedPattern :=
  if (pivotHighIdx w).length < 2 ∨ (pivotLowIdx w).length < 2 then []
  else if priceRange w = 0 then []
  else if resSlopeNorm w < -(3 / 100) ∧ supSlopeNorm w < -(3 / 100)
      ∧ resSlopeNorm w < supSlopeNorm w then
    if fallingWedgeConfidence w ≥ 40 then [fallingWedgePattern w] else []
  else []

/-- `pennant_end = min(pole_end + 20, self.n - 1)`. -/
def pennantEnd (w : Window) (pe : ℕ) : ℕ := min (pe + 20) (w.n - 1)

/-- Slope of the pennant highs (`np.polyfit` over `high[pole_end:pennant_end+1]`). -/
def pennantHighSlope (w : Window) (pe : ℕ) : ℚ :=
  (fitTrendline ((List.range (pennantEnd w pe + 1 - pe)).map
    fun (k : ℕ) => ((k : ℚ), w.high (pe + k)))).1

/-- Slope of the pennant lows. -/
def pennantLowSlope (w : Window) (pe : ℕ) : ℚ :=
  (fitTrendline ((List.range (pennantEnd w pe + 1 - pe)).map
    fun (k : ℕ) => ((k : ℚ), w.low (pe + k)))).1

/-- `pennant_range = np.max(pennant_highs) - np.min(pennant_lows)`. -/
def pennantRange (w : Window) (pe : ℕ) : ℚ :=
  rmax w.high pe (pennantEnd w pe) - rmin w.low pe (pennantEnd w pe)

/-- Pennant confidence before rounding. -/
def pennantConfidence (w : Window) (ps pe : ℕ) : ℚ :=
  min ((1 - pennantRange w pe / poleHeight w ps pe / (40 / 100)) * 40
      + min (|poleMove w ps pe| / (10 / 100)) 1 * 40 + 20)
    100

/-- The record appended by `_detect_pennant`. -/
def pennantPattern (w : Window) (ps pe : ℕ) : DetectedPattern :=
  { pattern_type := .pennant
    direction := if poleMove w ps pe > 0 then .bullish else .bearish
    confidence := round1 (pennantConfidence w ps pe)
    start_date := ps
    end_date := pennantEnd w pe
    key_levels := [("pole_start", round2 (w.close ps)),
                   ("pole_end", round2 (w.close pe)),
                   ("target", round2 (if poleMove w ps pe > 0
                                      then w.close (pennantEnd w pe) + poleHeight w ps pe
                                      else w.close (pennantEnd w pe) - poleHeight w ps pe))]
    status := .forming }

/-- One iteration of the `_detect_pennant` inner loop. -/
def checkPennant (w : Window) (ps pe : ℕ) : Option DetectedPattern :=
  if |poleMove w ps pe| < 5 / 100 then none
  else if pennantEnd w pe + 1 - pe < 5 then none
  else if pennantHighSlope w pe ≥ 0 ∨ pennantLowSlope w pe ≤ 0 then none
  else if pennantRange w pe / poleHeight w ps pe > 40 / 100 then none
  else if pennantConfidence w ps pe < 40 then none
  else some (pennantPattern w ps pe)

/-- The `results` list built by `_detect_pennant`: outer loop steps
`pole_start` by 5, inner loop `break`s at the first accepted `pole_end`. -/
def pennantCandidates (w : Window) : List DetectedPattern :=
  (List.range' 0 ((w.n - 10 + 4) / 5) 5).filterMap fun ps =>
    (List.range' (ps + 5) (min (ps + 20) (w.n - 5) - (ps + 5))).findSome?
      (checkPennant w ps)

/-- `_detect_pennant`: sort by confidence descending, return `results[:3]`. -/
def detectPennant (w : Window) : List DetectedPattern :=
  (List.insertionSort confGE (pennantCandidates w)).take 3

/-- `search_end = min(cup_start + 60, self.n - 10)`. -/
def cupSearchEnd (w : Window) (cs : ℕ) : ℕ := min (cs + 60) (w.n - 10)

/-- `cup_region = self.low[cup_start:search_end]` (exclusive end). -/
def cupRegion (w : Window) (cs : ℕ) : List ℚ :=
  (List.range' cs (cupSearchEnd w cs - cs)).map w.low

/-- `cup_bottom_local = np.argmin(cup_region)`. -/
def cupBottomLocal (w : Window) (cs : ℕ) : ℕ := argminL (cupRegion w cs)

/-- `cup_bottom_idx = cup_start + cup_bottom_local`. -/
def cupBottomIdx (w : Window) (cs : ℕ) : ℕ := cs + cupBottomLocal w cs

/-- `cup_depth_pct = (cup_start_price - cup_bottom_price) / cup_start_price`. -/
def cupDepth (w : Window) (cs : ℕ) : ℚ :=
  (w.high cs - w.low (cupBottomIdx w cs)) / w.high cs

/-- `right_side_end = min(cup_bottom_idx + cup_bottom_local*2, self.n - 1)`. -/
def cupRightEnd (w : Window) (cs : ℕ) : ℕ :=
  min (cupBottomIdx w cs + cupBottomLocal w cs * 2) (w.n - 1)

/-- `right_side_prices = self.high[cup_bottom_idx:right_side_end + 1]`. -/
def cupRightPrices (w : Window) (cs : ℕ) : List ℚ :=
  sliceIncl w.high (cupBottomIdx w cs) (cupRightEnd w cs)

/-- `rim_recovery = np.max(right_side_prices)`. -/
def cupRim (w : Window) (cs : ℕ) : ℚ := maxL (cupRightPrices w cs)

/-- `rim_idx = cup_bottom_idx + np.argmax(right_side_prices)`. -/
def cupRimIdx (w : Window) (cs : ℕ) : ℕ :=
  cupBottomIdx w cs + argmaxL (cupRightPrices w cs)

/-- `handle_end = min(rim_idx + 15, self.n - 1)`. -/
def cupHandleEnd (w : Window) (cs : ℕ) : ℕ := min (cupRimIdx w cs + 15) (w.n - 1)

/-- `handle_drop`: pullback of the handle relative to the rim. -/
def cupHandleDrop (w : Window) (cs : ℕ) : ℚ :=
  (cupRim w cs - rmin w.low (cupRimIdx w cs) (cupHandleEnd w cs)) / cupRim w cs

/-- Cup-and-handle confidence before rounding: left/right arc symmetry and
depth. -/
def cupConfidence (w : Window) (cs : ℕ) : ℚ :=
  min ((1 - |(cupBottomLocal w cs : ℚ) - ((cupRimIdx w cs - cupBottomIdx w cs : ℕ) : ℚ)|
          / max (cupBottomLocal w cs : ℚ) ((cupRimIdx w cs - cupBottomIdx w cs : ℕ) : ℚ)) * 35
      + min (cupDepth w cs / (15 / 100)) 1 * 35 + 30)
    100

/-- The record appended by `_detect_cup_and_handle`. -/
def cupPattern (w : Window) (cs : ℕ) : DetectedPattern :=
  { pattern_type := .cup_and_handle
    direction := .bullish
    confidence := round1 (cupConfidence w cs)
    start_date := cs
    end_date := cupHandleEnd w cs
    key_levels := [("rim", round2 (cupRim w cs)),
                   ("cup_bottom", round2 (w.low (cupBottomIdx w cs))),
                   ("target", round2 (cupRim w cs + (cupRim w cs - w.low (cupBottomIdx w cs))))]
    status := .forming }

/-- One iteration of the `_detect_cup_and_handle` loop. -/
def checkCup (w : Window) (cs : ℕ) : Option DetectedPattern :=
  if cupBottomLocal w cs < 5 ∨ cupBottomLocal w cs > (cupSearchEnd w cs - cs) - 5 then none
  else if cupDepth w cs < 5 / 100 ∨ cupDepth w cs > 50 / 100 then none
  else if cupRightEnd w cs ≤ cupBottomIdx w cs + 5 then none
  else if (w.high cs - cupRim w cs) / w.high cs > 5 / 100 then none
  else if cupHandleEnd w cs + 1 - cupRimIdx w cs < 3 then none
  else if cupHandleDrop w cs > 15 / 100 then none
  else if cupConfidence w cs < 40 then none
  else some (cupPattern w cs)

/-- `_detect_cup_and_handle`: needs at least 30 bars; the loop steps
`cup_start` by 5 and `break`s after the first accepted candidate, so the
`results[:2]` truncation acts on at most one element. -/
def detectCupAndHandle (w : Window) : List DetectedPattern :=
  if w.n < 30 then []
  else (((List.range' 0 ((w.n - 30 + 4) / 5) 5).findSome? (checkCup w)).toList).take 2

/-- The dispatch table `detector_map` of `detect_patterns`, with each detector
already bound to the window. -/
def detectorFor (w : Window) : PatternType → List DetectedPattern
  | .double_top => detectDoubleTop w
  | .double_bottom => detectDoubleBottom w
  | .head_and_shoulders => detectHeadShoulders w
  | .inverse_head_and_shoulders => detectInverseHeadShoulders w
  | .bull_flag => detectBullFlag w
  | .bear_flag => detectBearFlag w
  | .ascending_triangle => detectAscendingTriangle w
  | .descending_triangle => detectDescendingTriangle w
  | .symmetrical_triangle => detectSymmetricalTriangle w
  | .rising_wedge => detectRisingWedge w
  | .falling_wedge => detectFallingWedge w
  | .pennant => detectPennant w
  | .cup_and_handle => detectCupAndHandle w

/-- A detector call as seen by the orchestrator's `try`/`except`: either a
result list or a raised exception message.  The embedded detectors are total,
so the real table always succeeds. -/
def detectorMap (w : Window) (p : PatternType) : Except String (List DetectedPattern) :=
  .ok (detectorFor w p)

/-- The `detect_patterns` loop over the requested pattern list, generic in the
detector table: a successful detector extends `results`, a raised exception is
caught and contributes nothing. -/
def detectPatternsWith (dm : PatternType → Except String (List DetectedPattern)) :
    List PatternType → List DetectedPattern
  | [] => []
  | p :: rest =>
    (match dm p with
      | .ok l => l
      | .error _ => []) ++ detectPatternsWith dm rest

/-- `detect_patterns` on the real detector table. -/
def detect_patterns (w : Window) (pats : List PatternType) : List DetectedPattern :=
  detectPatternsWith (detectorMap w) pats

/-- The specification's characterisation of a pivot high: the bar's high
equals the maximum of the highs over the comparison window `i±order`, the
window clamped to the array bounds (order 5). -/
def specPivotHighIdx (w : Window) : List ℕ :=
  (List.range w.n).filter fun i =>
    decide (w.high i = rmax w.high (i - 5) (min (w.n - 1) (i + 5)))

/-- The specification's characterisation of a pivot low (order 5). -/
def specPivotLowIdx (w : Window) : List ℕ :=
  (List.range w.n).filter fun i =>
    decide (w.low i = rmin w.low (i - 5) (min (w.n - 1) (i + 5)))

/-- A constant zero-volatility window: `high == low == close == c` at every
bar, arbitrary volume series. -/
def constWindow (n : ℕ) (c : ℚ) (vol : ℕ → ℚ) : Window :=
  { n := n, close := fun _ => c, high := fun _ => c, low := fun _ => c, volume := vol }

/-- Build a window from explicit per-bar lists. -/
def mkW (n : ℕ) (cl hi lo vo : List ℚ) : Window :=
  { n := n
    close := fun i => cl.getD i 0
    high := fun i => hi.getD i 0
    low := fun i => lo.getD i 0
    volume := fun i => vo.getD i 0 }

/-- 21-bar test series whose highs have exactly two pivot highs, at bar 5
(price 100) and bar 15 (price 97): peaks exactly 3% apart and 10 bars apart. -/
def wDThigh : List ℚ :=
  [95, 95.5, 96, 96.5, 97.5, 100, 97.5, 96.5, 96, 95.5, 95,
   95.5, 96, 96.2, 96.5, 97, 96.5, 96.2, 96, 95.5, 95]

/-- Test window containing one valid double-top candidate whose computed
confidence is 22.8. -/
def wDT : Window :=
  mkW 21 (wDThigh.map (· - 1 / 2)) wDThigh (wDThigh.map (· - 1)) (List.replicate 21 1000)

/-- Tent-shaped high profile with four peaks: (5, 100), (16, 97.1),
(27, 100), (38, 99.9). -/
def tentHigh (i : ℕ) : ℚ :=
  max (max ((100 : ℚ) - |(i : ℚ) - 5|) ((971 : ℚ) / 10 - |(i : ℚ) - 16|))
    (max ((100 : ℚ) - |(i : ℚ) - 27|) ((999 : ℚ) / 10 - |(i : ℚ) - 38|))

/-- 44-bar test window with four pivot highs producing six valid double-top
candidates of confidences 31.9, 87, 85.1, 31.9, 33.2, 76.1 in scan order. -/
def wDT4 : Window :=
  { n := 44
    close := fun i => tentHigh i - 1 / 4
    high := tentHigh
    low := fun i => tentHigh i - 1 / 2
    volume := fun _ => 1000 }

/-- Closing prices of a 20-bar bull-flag series: a 10% pole over bars 0–5 and
a gently declining 14-bar consolidation. -/
def wFlagClose : List ℚ :=
  [100, 102, 104, 106, 108, 110, 1099 / 10, 1098 / 10, 1097 / 10, 1096 / 10, 1095 / 10,
   1094 / 10, 1093 / 10, 1092 / 10, 1091 / 10, 109, 1089 / 10, 1088 / 10, 1087 / 10, 1086 / 10]

/-- Test window containing one bull flag of confidence 82. -/
def wFlag : Window :=
  mkW 20 wFlagClose (wFlagClose.map (· + 3 / 10)) (wFlagClose.map (· - 3 / 10))
    (List.replicate 6 1000 ++ List.replicate 14 400)

/-- 45-bar test series: a steep 15-bar rise then a long gentle decline, giving
four bull-flag candidates (pole starts 0, 3, 6, 9) of distinct confidences. -/
def wFlag4 : Window :=
  { n := 45
    close := fun i => if i ≤ 15 then 100 + 3 / 2 * (i : ℚ) else 1224 / 10 - 1 / 20 * ((i : ℚ) - 16)
    high := fun i =>
      (if i ≤ 15 then 100 + 3 / 2 * (i : ℚ) else 1224 / 10 - 1 / 20 * ((i : ℚ) - 16)) + 3 / 10
    low := fun i =>
      (if i ≤ 15 then 100 + 3 / 2 * (i : ℚ) else 1224 / 10 - 1 / 20 * ((i : ℚ) - 16)) - 3 / 10
    volume := fun i => 2000 - 40 * i }

/-- Every member of a list is bounded by `maxL`. -/
theorem le_maxL : ∀ {l : List ℚ} {x : ℚ}, x ∈ l → x ≤ maxL l
  | [_], x, h => by
    simp only [List.mem_singleton] at h
    simp [maxL, h]
  | a :: b :: r, x, h => by
    rcases List.mem_cons.mp h with rfl | h2
    · exact le_max_left _ _
    · exact le_trans (le_maxL h2) (le_max_right _ _)

/-- `maxL` of a nonempty list is bounded by any upper bound of its members. -/
theorem maxL_le : ∀ {l : List ℚ} {c : ℚ}, l ≠ [] → (∀ x ∈ l, x ≤ c) → maxL l ≤ c
  | [a], c, _, h => by simpa [maxL] using h a (by simp)
  | a :: b :: r, c, _, h => by
    simp only [maxL]
    exact max_le (h a (by simp))
      (maxL_le (by simp) fun x hx => h x (List.mem_cons_of_mem _ hx))

/-- `minL` is a lower bound for every member. -/
theorem minL_le : ∀ {l : List ℚ} {x : ℚ}, x ∈ l → minL l ≤ x
  | [_], x, h => by
    simp only [List.mem_singleton] at h
    simp [minL, h]
  | a :: b :: r, x, h => by
    rcases List.mem_cons.mp h with rfl | h2
    · exact min_le_left _ _
    · exact le_trans (min_le_right _ _) (minL_le h2)

/-- Any lower bound of a nonempty list's members bounds `minL`. -/
theorem le_minL : ∀ {l : List ℚ} {c : ℚ}, l ≠ [] → (∀ x ∈ l, c ≤ x) → c ≤ minL l
  | [a], c, _, h => by simpa [minL] using h a (by simp)
  | a :: b :: r, c, _, h => by
    simp only [minL]
    exact le_min (h a (by simp))
      (le_minL (by simp) fun x hx => h x (List.mem_cons_of_mem _ hx))

/-- `minL` of a nonempty constant list is that constant. -/
theorem minL_const {l : List ℚ} {c : ℚ} (hne : l ≠ []) (h : ∀ x ∈ l, x = c) :
    minL l = c := by
  rcases List.exists_mem_of_ne_nil l hne with ⟨a, ha⟩
  have h1 : minL l ≤ c := (h a ha) ▸ minL_le ha
  have h2 : c ≤ minL l := le_minL hne fun x hx => (h x hx).ge
  linarith

/-- `maxL` of a nonempty constant list is that constant. -/
theorem maxL_const {l : List ℚ} {c : ℚ} (hne : l ≠ []) (h : ∀ x ∈ l, x = c) :
    maxL l = c := by
  rcases List.exists_mem_of_ne_nil l hne with ⟨a, ha⟩
  have h1 : c ≤ maxL l := (h a ha) ▸ le_maxL ha
  have h2 : maxL l ≤ c := maxL_le hne fun x hx => (h x hx).le
  linarith

/-- `argminL` of a constant list is 0 (`np.argmin` first-occurrence
tie-break). -/
theorem argminL_const {l : List ℚ} {c : ℚ} (h : ∀ x ∈ l, x = c) : argminL l = 0 := by
  match l with
  | [] => rfl
  | [a] => rfl
  | a :: b :: r =>
    simp only [argminL]
    rw [if_pos]
    have ha : a = c := h a (by simp)
    have : minL (b :: r) = c :=
      minL_const (by simp) fun x hx => h x (List.mem_cons_of_mem _ hx)
    rw [ha, this]

/-- Membership in an inclusive index range. -/
theorem mem_rangeIncl {lo hi j : ℕ} (h : lo ≤ hi) :
    j ∈ rangeIncl lo hi ↔ lo ≤ j ∧ j ≤ hi := by
  unfold rangeIncl
  rw [List.mem_range'_1]
  omega

/-- An inclusive index range with ordered endpoints is nonempty. -/
theorem rangeIncl_ne_nil {lo hi : ℕ} (h : lo ≤ hi) : rangeIncl lo hi ≠ [] := by
  have : lo ∈ rangeIncl lo hi := (mem_rangeIncl h).mpr ⟨le_refl _, h⟩
  exact List.ne_nil_of_mem this

/-- Both components of a pair produced by `upairs` are members of the list. -/
theorem mem_upairs {α : Type} : ∀ {l : List α} {x y : α}, (x, y) ∈ upairs l → x ∈ l ∧ y ∈ l
  | a :: r, x, y, h => by
    simp only [upairs, List.mem_append] at h
    rcases h with h | h
    · rcases List.mem_map.mp h with ⟨b, hb, he⟩
      obtain ⟨rfl, rfl⟩ := Prod.mk.injEq .. ▸ he
      exact ⟨by simp, List.mem_cons_of_mem _ hb⟩
    · have := mem_upairs h
      exact ⟨List.mem_cons_of_mem _ this.1, List.mem_cons_of_mem _ this.2⟩

/-- Over a strictly increasing list, `upairs` produces strictly ordered pairs. -/
theorem upairs_lt : ∀ {l : List ℕ}, l.Pairwise (· < ·) →
    ∀ {x y : ℕ}, (x, y) ∈ upairs l → x < y
  | a :: r, hs, x, y, h => by
    simp only [upairs, List.mem_append] at h
    rcases h with h | h
    · rcases List.mem_map.mp h with ⟨b, hb, he⟩
      obtain ⟨rfl, rfl⟩ := Prod.mk.injEq .. ▸ he
      exact (List.pairwise_cons.mp hs).1 _ hb
    · exact upairs_lt (List.pairwise_cons.mp hs).2 h

/-- All three components of a `triples` member belong to the list. -/
theorem mem_triples {α : Type} : ∀ {l : List α} {x y z : α},
    (x, y, z) ∈ triples l → x ∈ l ∧ y ∈ l ∧ z ∈ l
  | a :: b :: c :: r, x, y, z, h => by
    simp only [triples, List.mem_cons] at h
    rcases h with h | h
    · obtain ⟨rfl, rfl, rfl⟩ := Prod.mk.injEq .. ▸ h
      refine ⟨by simp, by simp, by simp⟩
    · have := mem_triples h
      exact ⟨List.mem_cons_of_mem _ this.1, List.mem_cons_of_mem _ this.2.1,
        List.mem_cons_of_mem _ this.2.2⟩

/-- `round` on ℚ is monotone. -/
theorem round_q_mono {a b : ℚ} (h : a ≤ b) : round a ≤ round b := by
  rw [round_eq, round_eq]
  exact Int.floor_le_floor (by linarith)

/-- `round1` is monotone. -/
theorem round1_mono {a b : ℚ} (h : a ≤ b) : round1 a ≤ round1 b := by
  unfold round1
  have h1 : round (a * 10) ≤ round (b * 10) := round_q_mono (by linarith)
  have h2 : ((round (a * 10) : ℤ) : ℚ) ≤ ((round (b * 10) : ℤ) : ℚ) := Int.cast_le.mpr h1
  linarith

/-- `round1` fixes integers. -/
theorem round1_intCast (n : ℤ) : round1 (n : ℚ) = n := by
  unfold round1
  rw [show ((n : ℚ) * 10) = ((n * 10 : ℤ) : ℚ) by push_cast; ring, round_intCast]
  push_cast
  ring

/-- `round1` preserves the `[0, 100]` confidence band. -/
theorem round1_bounds {q : ℚ} (h0 : 0 ≤ q) (h1 : q ≤ 100) :
    0 ≤ round1 q ∧ round1 q ≤ 100 := by
  have a0 : round1 ((0 : ℤ) : ℚ) ≤ round1 q := round1_mono (by push_cast; linarith)
  have a1 : round1 q ≤ round1 ((100 : ℤ) : ℚ) := round1_mono (by push_cast; linarith)
  rw [round1_intCast] at a0 a1
  push_cast at a0 a1
  exact ⟨a0, a1⟩

/-- `round1` preserves the ≥ 40 confidence floor. -/
theorem round1_ge_forty {q : ℚ} (h : 40 ≤ q) : 40 ≤ round1 q := by
  have a0 : round1 ((40 : ℤ) : ℚ) ≤ round1 q := round1_mono (by push_cast; linarith)
  rw [round1_intCast] at a0
  push_cast at a0
  exact a0

/-- A slice over ordered endpoints is nonempty. -/
theorem sliceIncl_ne_nil {f : ℕ → ℚ} {lo hi : ℕ} (h : lo ≤ hi) :
    sliceIncl f lo hi ≠ [] := by
  unfold sliceIncl
  intro hc
  exact rangeIncl_ne_nil h (List.map_eq_nil_iff.mp hc)

/-- The pivot-high index list is strictly increasing. -/
theorem pivotHighIdx_sorted (w : Window) : (pivotHighIdx w).Pairwise (· < ·) := by
  unfold pivotHighIdx
  split_ifs
  · simp
  · exact List.Pairwise.filter _ (List.pairwise_lt_range _)

/-- The pivot-low index list is strictly increasing. -/
theorem pivotLowIdx_sorted (w : Window) : (pivotLowIdx w).Pairwise (· < ·) := by
  unfold pivotLowIdx
  split_ifs
  · simp
  · exact List.Pairwise.filter _ (List.pairwise_lt_range _)

/-- Pivot-high indices are valid bar indices. -/
theorem mem_pivotHighIdx_lt {w : Window} {i : ℕ} (h : i ∈ pivotHighIdx w) : i < w.n := by
  unfold pivotHighIdx at h
  split_ifs at h
  · simp at h
  · exact List.mem_range.mp (List.mem_of_mem_filter h)

/-- Pivot-low indices are valid bar indices. -/
theorem mem_pivotLowIdx_lt {w : Window} {i : ℕ} (h : i ∈ pivotLowIdx w) : i < w.n := by
  unfold pivotLowIdx at h
  split_ifs at h
  · simp at h
  · exact List.mem_range.mp (List.mem_of_mem_filter h)

/-- The `argrelextrema` greater-equal shift test at a valid index is
equivalent to the bar's high equalling the window maximum over the clamped
comparison window. -/
theorem relMaxCheck_iff (f : ℕ → ℚ) (n i : ℕ) (hi : i < n) :
    relMaxCheck f n 5 i = true ↔ f i = rmax f (i - 5) (min (n - 1) (i + 5)) := by
  unfold relMaxCheck
  rw [List.all_eq_true]
  constructor
  · intro h
    have hub : ∀ j ∈ rangeIncl (i - 5) (min (n - 1) (i + 5)), f j ≤ f i := by
      intro j hj
      rw [mem_rangeIncl (by omega)] at hj
      by_cases hcase : i ≤ j
      · rcases Nat.eq_or_lt_of_le hcase with rfl | hlt
        · exact le_refl _
        · have hms : j - i ∈ List.range' 1 5 := List.mem_range'_1.mpr (by omega)
          have hc := h _ hms
          simp only [Bool.and_eq_true, decide_eq_true_eq] at hc
          have hj2 : min (i + (j - i)) (n - 1) = j := by omega
          rw [hj2] at hc
          exact hc.1
      · push_neg at hcase
        have hms : i - j ∈ List.range' 1 5 := List.mem_range'_1.mpr (by omega)
        have hc := h _ hms
        simp only [Bool.and_eq_true, decide_eq_true_eq] at hc
        have hj2 : i - (i - j) = j := by omega
        rw [hj2] at hc
        exact hc.2
    have hmemi : f i ∈ sliceIncl f (i - 5) (min (n - 1) (i + 5)) :=
      List.mem_map_of_mem f ((mem_rangeIncl (by omega)).mpr ⟨by omega, by omega⟩)
    have h1 : rmax f (i - 5) (min (n - 1) (i + 5)) ≤ f i := by
      apply maxL_le (sliceIncl_ne_nil (by omega))
      intro x hx
      rcases List.mem_map.mp hx with ⟨j, hj, rfl⟩
      exact hub j hj
    have h2 : f i ≤ rmax f (i - 5) (min (n - 1) (i + 5)) := le_maxL hmemi
    linarith
  · intro h s hms
    rw [List.mem_range'_1] at hms
    simp only [Bool.and_eq_true, decide_eq_true_eq]
    constructor
    · have hm : min (i + s) (n - 1) ∈ rangeIncl (i - 5) (min (n - 1) (i + 5)) :=
        (mem_rangeIncl (by omega)).mpr ⟨by omega, by omega⟩
      rw [h]
      exact le_maxL (List.mem_map_of_mem f hm)
    · have hm : i - s ∈ rangeIncl (i - 5) (min (n - 1) (i + 5)) :=
        (mem_rangeIncl (by omega)).mpr ⟨by omega, by omega⟩
      rw [h]
      exact le_maxL (List.mem_map_of_mem f hm)

/-- The `argrelextrema` less-equal shift test at a valid index is equivalent
to the bar's low equalling the window minimum over the clamped window. -/
theorem relMinCheck_iff (f : ℕ → ℚ) (n i : ℕ) (hi : i < n) :
    relMinCheck f n 5 i = true ↔ f i = rmin f (i - 5) (min (n - 1) (i + 5)) := by
  unfold relMinCheck
  rw [List.all_eq_true]
  constructor
  · intro h
    have hub : ∀ j ∈ rangeIncl (i - 5) (min (n - 1) (i + 5)), f i ≤ f j := by
      intro j hj
      rw [mem_rangeIncl (by omega)] at hj
      by_cases hcase : i ≤ j
      · rcases Nat.eq_or_lt_of_le hcase with rfl | hlt
        · exact le_refl _
        · have hms : j - i ∈ List.range' 1 5 := List.mem_range'_1.mpr (by omega)
          have hc := h _ hms
          simp only [Bool.and_eq_true, decide_eq_true_eq] at hc
          have hj2 : min (i + (j - i)) (n - 1) = j := by omega
          rw [hj2] at hc
          exact hc.1
      · push_neg at hcase
        have hms : i - j ∈ List.range' 1 5 := List.mem_range'_1.mpr (by omega)
        have hc := h _ hms
        simp only [Bool.and_eq_true, decide_eq_true_eq] at hc
        have hj2 : i - (i - j) = j := by omega
        rw [hj2] at hc
        exact hc.2
    have hmemi : f i ∈ sliceIncl f (i - 5) (min (n - 1) (i + 5)) :=
      List.mem_map_of_mem f ((mem_rangeIncl (by omega)).mpr ⟨by omega, by omega⟩)
    have h1 : f i ≤ rmin f (i - 5) (min (n - 1) (i + 5)) := by
      apply le_minL (sliceIncl_ne_nil (by omega))
      intro x hx
      rcases List.mem_map.mp hx with ⟨j, hj, rfl⟩
      exact hub j hj
    have h2 : rmin f (i - 5) (min (n - 1) (i + 5)) ≤ f i := minL_le hmemi
    linarith
  · intro h s hms
    rw [List.mem_range'_1] at hms
    simp only [Bool.and_eq_true, decide_eq_true_eq]
    constructor
    · have hm : min (i + s) (n - 1) ∈ rangeIncl (i - 5) (min (n - 1) (i + 5)) :=
        (mem_rangeIncl (by omega)).mpr ⟨by omega, by omega⟩
      rw [h]
      exact minL_le (List.mem_map_of_mem f hm)
    · have hm : i - s ∈ rangeIncl (i - 5) (min (n - 1) (i + 5)) :=
        (mem_rangeIncl (by omega)).mpr ⟨by omega, by omega⟩
      rw [h]
      exact minL_le (List.mem_map_of_mem f hm)

/-- **C2** For every window with pivot order 5: if `n < 2*order+1` the pivot
extraction returns empty high/low index sets; otherwise `pivot_high_idx` is
exactly the strictly increasing list of indices whose high equals the maximum
of the highs over the clamped window `i±5`, and `pivot_low_idx` is exactly
the indices whose low equals the minimum of the lows over that window. -/
theorem pivot_extraction_spec (w : Window) :
    (w.n < 2 * 5 + 1 → pivotHighIdx w = [] ∧ pivotLowIdx w = []) ∧
    (2 * 5 + 1 ≤ w.n →
      pivotHighIdx w = specPivotHighIdx w ∧ (pivotHighIdx w).Pairwise (· < ·) ∧
      pivotLowIdx w = specPivotLowIdx w ∧ (pivotLowIdx w).Pairwise (· < ·)) := by
  constructor
  · intro h
    unfold pivotHighIdx pivotLowIdx
    rw [if_pos (by omega), if_pos (by omega)]
    exact ⟨rfl, rfl⟩
  · intro h
    refine ⟨?_, pivotHighIdx_sorted w, ?_, pivotLowIdx_sorted w⟩
    · unfold pivotHighIdx specPivotHighIdx
      rw [if_neg (by omega)]
      apply List.filter_congr
      intro i hi
      have hlt := List.mem_range.mp hi
      by_cases hP : w.high i = rmax w.high (i - 5) (min (w.n - 1) (i + 5))
      · rw [(relMaxCheck_iff w.high w.n i hlt).mpr hP, decide_eq_true hP]
      · rw [decide_eq_false hP]
        exact Bool.eq_false_iff.mpr fun hc => hP ((relMaxCheck_iff w.high w.n i hlt).mp hc)
    · unfold pivotLowIdx specPivotLowIdx
      rw [if_neg (by omega)]
      apply List.filter_congr
      intro i hi
      have hlt := List.mem_range.mp hi
      by_cases hP : w.low i = rmin w.low (i - 5) (min (w.n - 1) (i + 5))
      · rw [(relMinCheck_iff w.low w.n i hlt).mpr hP, decide_eq_true hP]
      · rw [decide_eq_false hP]
        exact Bool.eq_false_iff.mpr fun hc => hP ((relMinCheck_iff w.low w.n i hlt).mp hc)

/-- Witness for `pivot_extraction_spec`: a 3-bar window falls in the empty
branch, the 21-bar `wDT` window in the filter branch. -/
theorem pivot_extraction_spec_witness :
    (pivotHighIdx (constWindow 3 5 fun _ => 1) = [] ∧
      pivotLowIdx (constWindow 3 5 fun _ => 1) = []) ∧
    (pivotHighIdx wDT = specPivotHighIdx wDT ∧ (pivotHighIdx wDT).Pairwise (· < ·) ∧
      pivotLowIdx wDT = specPivotLowIdx wDT ∧ (pivotLowIdx wDT).Pairwise (· < ·)) :=
  ⟨(pivot_extraction_spec (constWindow 3 5 fun _ => 1)).1 (by decide),
    (pivot_extraction_spec wDT).2 (by decide)⟩

/-- Unfolding a successful double-top candidate: the three `continue` filters
were all passed and the result is the constructed record. -/
theorem mkDoubleTop_eq_some {w : Window} {i j : ℕ} {p : DetectedPattern}
    (h : mkDoubleTop w i j = some p) :
    |w.high i - w.high j| / max (w.high i) (w.high j) ≤ 3 / 100 ∧
    10 ≤ j - i ∧
    2 / 100 ≤ (dtAvgPeak w i j - dtNeckline w i j) / dtAvgPeak w i j ∧
    p = dtPattern w i j := by
  unfold mkDoubleTop at h
  split_ifs at h with h1 h2 h3
  exact ⟨not_lt.mp h1, not_lt.mp h2, not_lt.mp h3, (Option.some.inj h).symm⟩

/-- Every double-top candidate arises from an ordered pair of pivot highs. -/
theorem mem_doubleTopCandidates {w : Window} {p : DetectedPattern}
    (h : p ∈ doubleTopCandidates w) :
    ∃ i j, i ∈ pivotHighIdx w ∧ j ∈ pivotHighIdx w ∧ i < j ∧
      mkDoubleTop w i j = some p := by
  unfold doubleTopCandidates at h
  split_ifs at h
  · simp at h
  · rcases List.mem_filterMap.mp h with ⟨⟨i, j⟩, hmem, hmk⟩
    have hm := mem_upairs hmem
    exact ⟨i, j, hm.1, hm.2, upairs_lt (pivotHighIdx_sorted w) hmem, hmk⟩

/-- **C1** Every pattern returned by the double-top detector comes from two
pivot-high bars whose highs differ by at most 3% of the larger, lie at least
10 bars apart, and whose inter-peak minimum low (the neckline) sits at least
2% below the peak average; the pattern is bearish. -/
theorem double_top_geometry (w : Window) (p : DetectedPattern)
    (hp : p ∈ detectDoubleTop w) :
    ∃ i j, i ∈ pivotHighIdx w ∧ j ∈ pivotHighIdx w ∧
      |w.high i - w.high j| / max (w.high i) (w.high j) ≤ 3 / 100 ∧
      i + 10 ≤ j ∧
      2 / 100 ≤ ((w.high i + w.high j) / 2 - rmin w.low i j) / ((w.high i + w.high j) / 2) ∧
      p.direction = .bearish := by
  rcases mem_doubleTopCandidates (List.mem_of_mem_take hp) with ⟨i, j, hi, hj, hij, hmk⟩
  rcases mkDoubleTop_eq_some hmk with ⟨h1, h2, h3, hpat⟩
  exact ⟨i, j, hi, hj, h1, by omega, h3, by rw [hpat]; rfl⟩

set_option maxRecDepth 40000 in
/-- Evaluation of the double-top detector on `wDT`. -/
theorem detectDoubleTop_wDT_eq : detectDoubleTop wDT = [dtPattern wDT 5 15] := by
  with_unfolding_all decide

/-- Witness for `double_top_geometry` on the concrete window `wDT`. -/
theorem double_top_geometry_witness :
    ∃ i j, i ∈ pivotHighIdx wDT ∧ j ∈ pivotHighIdx wDT ∧
      |wDT.high i - wDT.high j| / max (wDT.high i) (wDT.high j) ≤ 3 / 100 ∧
      i + 10 ≤ j ∧
      2 / 100 ≤ ((wDT.high i + wDT.high j) / 2 - rmin wDT.low i j)
        / ((wDT.high i + wDT.high j) / 2) ∧
      (dtPattern wDT 5 15).direction = .bearish :=
  double_top_geometry wDT (dtPattern wDT 5 15)
    (by rw [detectDoubleTop_wDT_eq]
        exact List.mem_singleton.mpr rfl)

/-- The double-top confirmation test is equivalent to some close at or after
the second peak lying strictly below the neckline. -/
theorem dtBroke_iff {w : Window} {i j : ℕ} (hj : j ≤ w.n) :
    dtBroke w i j = true ↔ ∃ k, j ≤ k ∧ k < w.n ∧ w.close k < rmin w.low i j := by
  unfold dtBroke
  rw [List.any_eq_true]
  constructor
  · rintro ⟨k, hk, hdec⟩
    rw [List.mem_range'_1] at hk
    exact ⟨k, hk.1, by omega, of_decide_eq_true hdec⟩
  · rintro ⟨k, h1, h2, h3⟩
    exact ⟨k, List.mem_range'_1.mpr ⟨h1, by omega⟩, decide_eq_true h3⟩

/-- **C8** Every pattern returned by the double-top detector is CONFIRMED
exactly when some closing price at or after the second peak is strictly below
the neckline (the minimum low between the two peaks), and FORMING otherwise. -/
theorem double_top_status_iff (w : Window) (p : DetectedPattern)
    (hp : p ∈ detectDoubleTop w) :
    ∃ i j, i ∈ pivotHighIdx w ∧ j ∈ pivotHighIdx w ∧ i + 10 ≤ j ∧
      (p.status = .confirmed ↔ ∃ k, j ≤ k ∧ k < w.n ∧ w.close k < rmin w.low i j) ∧
      (p.status = .forming ↔ ¬∃ k, j ≤ k ∧ k < w.n ∧ w.close k < rmin w.low i j) := by
  rcases mem_doubleTopCandidates (List.mem_of_mem_take hp) with ⟨i, j, hi, hj, hij, hmk⟩
  rcases mkDoubleTop_eq_some hmk with ⟨h1, h2, h3, hpat⟩
  have hjn : j ≤ w.n := le_of_lt (mem_pivotHighIdx_lt hj)
  refine ⟨i, j, hi, hj, by omega, ?_, ?_⟩
  · rw [← dtBroke_iff hjn, hpat]
    show (if dtBroke w i j then PatternStatus.confirmed else .forming) = .confirmed ↔ _
    rcases Bool.eq_false_or_eq_true (dtBroke w i j) with hb | hb <;> rw [hb] <;> simp
  · rw [← dtBroke_iff hjn, hpat]
    show (if dtBroke w i j then PatternStatus.confirmed else .forming) = .forming ↔ _
    rcases Bool.eq_false_or_eq_true (dtBroke w i j) with hb | hb <;> rw [hb] <;> simp

/-- **C3** If one detector raises during `detect_patterns`, the exception is
caught: that pattern type contributes nothing, and the result equals what the
same call would return had the failing detector not been requested. -/
theorem detector_failure_isolated (dm : PatternType → Except String (List DetectedPattern))
    (l1 l2 : List PatternType) (p : PatternType) (e : String) (h : dm p = .error e) :
    detectPatternsWith dm (l1 ++ p :: l2) = detectPatternsWith dm (l1 ++ l2) := by
  induction l1 with
  | nil => simp [detectPatternsWith, h]
  | cons q l ih =>
    show (match dm q with | .ok r => r | .error _ => []) ++ detectPatternsWith dm (l ++ p :: l2)
      = (match dm q with | .ok r => r | .error _ => []) ++ detectPatternsWith dm (l ++ l2)
    rw [ih]

/-- Witness for `detector_failure_isolated`: a table whose double-top entry
raises, dispatched between two healthy detectors. -/
theorem detector_failure_isolated_witness :
    detectPatternsWith
      (fun t => if t = .double_top then .error "boom" else detectorMap wFlag t)
      [.bull_flag, .double_top, .cup_and_handle] =
    detectPatternsWith
      (fun t => if t = .double_top then .error "boom" else detectorMap wFlag t)
      [.bull_flag, .cup_and_handle] :=
  detector_failure_isolated _ [.bull_flag] [.cup_and_handle] .double_top "boom" rfl

/-- `sX` over a cons. -/
theorem sX_cons (a : ℚ × ℚ) (l : List (ℚ × ℚ)) : sX (a :: l) = a.1 + sX l := by
  simp [sX]

/-- `sY` over a cons. -/
theorem sY_cons (a : ℚ × ℚ) (l : List (ℚ × ℚ)) : sY (a :: l) = a.2 + sY l := by
  simp [sY]

/-- `sXX` over a cons. -/
theorem sXX_cons (a : ℚ × ℚ) (l : List (ℚ × ℚ)) : sXX (a :: l) = a.1 * a.1 + sXX l := by
  simp [sXX]

/-- `sXY` over a cons. -/
theorem sXY_cons (a : ℚ × ℚ) (l : List (ℚ × ℚ)) : sXY (a :: l) = a.1 * a.2 + sXY l := by
  simp [sXY]

/-- Vertical-residual sum in terms of the coordinate sums. -/
theorem rSum_eq (pts : List (ℚ × ℚ)) (m b : ℚ) :
    (pts.map fun p => p.2 - (m * p.1 + b)).sum = sY pts - m * sX pts - b * pts.length := by
  induction pts with
  | nil => simp [sY, sX]
  | cons a l ih =>
    rw [List.map_cons, List.sum_cons, ih, sY_cons, sX_cons]
    push_cast [List.length_cons]
    ring

/-- Index-weighted residual sum in terms of the coordinate sums. -/
theorem rxSum_eq (pts : List (ℚ × ℚ)) (m b : ℚ) :
    (pts.map fun p => (p.2 - (m * p.1 + b)) * p.1).sum
      = sXY pts - m * sXX pts - b * sX pts := by
  induction pts with
  | nil => simp [sXY, sXX, sX]
  | cons a l ih =>
    rw [List.map_cons, List.sum_cons, ih, sXY_cons, sXX_cons, sX_cons]
    ring

/-- Sum of squared deviations of the first coordinates from a reference. -/
theorem sq_dev_sum (pts : List (ℚ × ℚ)) (t : ℚ) :
    (pts.map fun p => (t - p.1) ^ 2).sum
      = pts.length * t ^ 2 - 2 * t * sX pts + sXX pts := by
  induction pts with
  | nil => simp [sX, sXX]
  | cons a l ih =>
    rw [List.map_cons, List.sum_cons, ih, sX_cons, sXX_cons]
    push_cast [List.length_cons]
    ring

/-- Recurrence of the normal-equation determinant over a cons. -/
theorem lsqDet_cons (a : ℚ × ℚ) (l : List (ℚ × ℚ)) :
    lsqDet (a :: l) = lsqDet l + (l.map fun p => (a.1 - p.1) ^ 2).sum := by
  unfold lsqDet
  rw [sX_cons, sXX_cons, sq_dev_sum]
  push_cast [List.length_cons]
  ring

/-- The normal-equation determinant is nonnegative. -/
theorem lsqDet_nonneg (pts : List (ℚ × ℚ)) : 0 ≤ lsqDet pts := by
  induction pts with
  | nil => simp [lsqDet, sX, sXX]
  | cons a l ih =>
    rw [lsqDet_cons]
    have : 0 ≤ (l.map fun p => (a.1 - p.1) ^ 2).sum := by
      apply List.sum_nonneg
      intro x hx
      rcases List.mem_map.mp hx with ⟨q, _, rfl⟩
      exact sq_nonneg _
    linarith

/-- A vanishing determinant forces all first coordinates equal. -/
theorem lsqDet_eq_zero_all_eq {pts : List (ℚ × ℚ)} (h : lsqDet pts = 0) :
    ∀ p ∈ pts, ∀ q ∈ pts, p.1 = q.1 := by
  induction pts with
  | nil => intro p hp; simp at hp
  | cons a l ih =>
    rw [lsqDet_cons] at h
    have hs : 0 ≤ (l.map fun p => (a.1 - p.1) ^ 2).sum := by
      apply List.sum_nonneg
      intro x hx
      rcases List.mem_map.mp hx with ⟨q, _, rfl⟩
      exact sq_nonneg _
    have hd0 : lsqDet l = 0 := le_antisymm (by linarith) (lsqDet_nonneg l)
    have hsum0 : (l.map fun p => (a.1 - p.1) ^ 2).sum = 0 := by linarith
    have hkey : ∀ p ∈ l, p.1 = a.1 := by
      intro p hp
      have hmem : (a.1 - p.1) ^ 2 ∈ l.map fun p => (a.1 - p.1) ^ 2 :=
        List.mem_map_of_mem _ hp
      have hle : (a.1 - p.1) ^ 2 ≤ 0 := by
        rw [← hsum0]
        apply List.single_le_sum _ _ hmem
        intro x hx
        rcases List.mem_map.mp hx with ⟨q, _, rfl⟩
        exact sq_nonneg _
      have hsq : (a.1 - p.1) ^ 2 = 0 := le_antisymm hle (sq_nonneg _)
      have h0 : a.1 - p.1 = 0 := sq_eq_zero_iff.mp hsq
      linarith
    intro p hp q hq
    rcases List.mem_cons.mp hp with hp1 | hp2 <;> rcases List.mem_cons.mp hq with hq1 | hq2
    · rw [hp1, hq1]
    · rw [hp1]
      exact (hkey q hq2).symm
    · rw [hq1]
      exact hkey p hp2
    · exact ih hd0 p hp2 q hq2

/-- Sum of first coordinates when they are all equal. -/
theorem sX_const_of {pts : List (ℚ × ℚ)} {t : ℚ} (h : ∀ p ∈ pts, p.1 = t) :
    sX pts = pts.length * t := by
  induction pts with
  | nil => simp [sX]
  | cons a l ih =>
    rw [sX_cons, h a (by simp), ih fun p hp => h p (List.mem_cons_of_mem _ hp)]
    push_cast [List.length_cons]
    ring

/-- Mixed sum when all first coordinates are equal. -/
theorem sXY_const_of {pts : List (ℚ × ℚ)} {t : ℚ} (h : ∀ p ∈ pts, p.1 = t) :
    sXY pts = t * sY pts := by
  induction pts with
  | nil => simp [sXY, sY]
  | cons a l ih =>
    rw [sXY_cons, sY_cons, h a (by simp), ih fun p hp => h p (List.mem_cons_of_mem _ hp)]
    ring

/-- The slope returned on at least two points. -/
theorem fitTrendline_fst {pts : List (ℚ × ℚ)} (h : 2 ≤ pts.length) :
    (fitTrendline pts).1
      = ((pts.length : ℚ) * sXY pts - sX pts * sY pts) / lsqDet pts := by
  unfold fitTrendline
  rw [if_neg (by omega)]

/-- The intercept returned on at least two points. -/
theorem fitTrendline_snd {pts : List (ℚ × ℚ)} (h : 2 ≤ pts.length) :
    (fitTrendline pts).2
      = (sY pts - (fitTrendline pts).1 * sX pts) / (pts.length : ℚ) := by
  rw [fitTrendline_fst h]
  unfold fitTrendline
  rw [if_neg (by omega)]

/-- The fitted line satisfies both least-squares normal equations. -/
theorem fit_normal_eqs {pts : List (ℚ × ℚ)} (h : 2 ≤ pts.length) :
    sY pts - (fitTrendline pts).1 * sX pts - (fitTrendline pts).2 * pts.length = 0 ∧
    sXY pts - (fitTrendline pts).1 * sXX pts - (fitTrendline pts).2 * sX pts = 0 := by
  have hn : ((pts.length : ℚ)) ≠ 0 := Nat.cast_ne_zero.mpr (by omega)
  constructor
  · rw [fitTrendline_snd h]
    field_simp
  · by_cases hD : lsqDet pts = 0
    · have hall := lsqDet_eq_zero_all_eq hD
      rcases pts with _ | ⟨a, l⟩
      · simp at h
      · have hx : ∀ p ∈ a :: l, p.1 = a.1 := fun p hp => hall p hp a (by simp)
        have hs : (fitTrendline (a :: l)).1 = 0 := by
          rw [fitTrendline_fst h, hD, div_zero]
        rw [fitTrendline_snd h, hs, sXY_const_of hx, sX_const_of hx]
        field_simp
        ring
    · rw [fitTrendline_snd h, fitTrendline_fst h]
      field_simp
      unfold lsqDet
      ring

/-- Quadratic decomposition of the residual objective around a reference
line. -/
theorem sse_decomp (pts : List (ℚ × ℚ)) (s c m b : ℚ) :
    sse pts m b = sse pts s c
      + 2 * (s - m) * ((pts.map fun p => (p.2 - (s * p.1 + c)) * p.1).sum)
      + 2 * (c - b) * ((pts.map fun p => p.2 - (s * p.1 + c)).sum)
      + (pts.map fun p => ((s - m) * p.1 + (c - b)) ^ 2).sum := by
  induction pts with
  | nil => simp [sse]
  | cons a l ih =>
    simp only [sse, List.map_cons, List.sum_cons] at ih ⊢
    linear_combination ih

/-- **C9** The trendline fitter returns (0,0) on no points, (0, price) on a
single point, and on at least two points an ordinary-least-squares line:
no line has a strictly smaller sum of squared vertical residuals. -/
theorem fit_trendline_spec (pts : List (ℚ × ℚ)) :
    (pts.length = 0 → fitTrendline pts = (0, 0)) ∧
    (∀ x y, pts = [(x, y)] → fitTrendline pts = (0, y)) ∧
    (2 ≤ pts.length →
      ∀ m b, sse pts (fitTrendline pts).1 (fitTrendline pts).2 ≤ sse pts m b) := by
  refine ⟨?_, ?_, ?_⟩
  · intro h
    rw [List.length_eq_zero.mp h]
    rfl
  · intro x y h
    rw [h]
    rfl
  · intro hlen m b
    obtain ⟨hne1, hne2⟩ := fit_normal_eqs hlen
    have hd := sse_decomp pts (fitTrendline pts).1 (fitTrendline pts).2 m b
    rw [rSum_eq, rxSum_eq] at hd
    have hq : 0 ≤ (pts.map fun p =>
        (((fitTrendline pts).1 - m) * p.1 + ((fitTrendline pts).2 - b)) ^ 2).sum := by
      apply List.sum_nonneg
      intro x hx
      rcases List.mem_map.mp hx with ⟨q, _, rfl⟩
      exact sq_nonneg _
    rw [hne1, hne2] at hd
    ring_nf at hd
    linarith [hq, hd]

/-- Witness for `fit_trendline_spec` at empty, singleton and two-point
inputs. -/
theorem fit_trendline_spec_witness :
    fitTrendline ([] : List (ℚ × ℚ)) = (0, 0) ∧
    fitTrendline [((3 : ℚ), (7 : ℚ))] = (0, 7) ∧
    sse [((0 : ℚ), (0 : ℚ)), (1, 1)] (fitTrendline [((0 : ℚ), (0 : ℚ)), (1, 1)]).1
      (fitTrendline [((0 : ℚ), (0 : ℚ)), (1, 1)]).2
      ≤ sse [((0 : ℚ), (0 : ℚ)), (1, 1)] 5 5 :=
  ⟨(fit_trendline_spec []).1 rfl, (fit_trendline_spec [((3 : ℚ), (7 : ℚ))]).2.1 3 7 rfl,
    (fit_trendline_spec [((0 : ℚ), (0 : ℚ)), (1, 1)]).2.2 (by decide) 5 5⟩

/-- Witness for `double_top_status_iff` on the concrete window `wDT` (the
pattern there is still FORMING). -/
theorem double_top_status_iff_witness :
    ∃ i j, i ∈ pivotHighIdx wDT ∧ j ∈ pivotHighIdx wDT ∧ i + 10 ≤ j ∧
      ((dtPattern wDT 5 15).status = .confirmed ↔
        ∃ k, j ≤ k ∧ k < wDT.n ∧ wDT.close k < rmin wDT.low i j) ∧
      ((dtPattern wDT 5 15).status = .forming ↔
        ¬∃ k, j ≤ k ∧ k < wDT.n ∧ wDT.close k < rmin wDT.low i j) :=
  double_top_status_iff wDT (dtPattern wDT 5 15)
    (by rw [detectDoubleTop_wDT_eq]
        exact List.mem_singleton.mpr rfl)

/-- Unfolding a successful double-bottom candidate. -/
theorem mkDoubleBottom_eq_some {w : Window} {i j : ℕ} {p : DetectedPattern}
    (h : mkDoubleBottom w i j = some p) :
    |w.low i - w.low j| / max (w.low i) (w.low j) ≤ 3 / 100 ∧
    10 ≤ j - i ∧
    2 / 100 ≤ (dbNeckline w i j - dbAvgTrough w i j) / dbNeckline w i j ∧
    p = dbPattern w i j := by
  unfold mkDoubleBottom at h
  split_ifs at h with h1 h2 h3
  exact ⟨not_lt.mp h1, not_lt.mp h2, not_lt.mp h3, (Option.some.inj h).symm⟩

/-- Every double-bottom candidate arises from an ordered pair of pivot lows. -/
theorem mem_doubleBottomCandidates {w : Window} {p : DetectedPattern}
    (h : p ∈ doubleBottomCandidates w) :
    ∃ i j, i ∈ pivotLowIdx w ∧ j ∈ pivotLowIdx w ∧ i < j ∧
      mkDoubleBottom w i j = some p := by
  unfold doubleBottomCandidates at h
  split_ifs at h
  · simp at h
  · rcases List.mem_filterMap.mp h with ⟨⟨i, j⟩, hmem, hmk⟩
    have hm := mem_upairs hmem
    exact ⟨i, j, hm.1, hm.2, upairs_lt (pivotLowIdx_sorted w) hmem, hmk⟩

/-- Unfolding a successful head-and-shoulders candidate. -/
theorem mkHeadShoulders_eq_some {w : Window} {a b c : ℕ} {p : DetectedPattern}
    (h : mkHeadShoulders w a b c = some p) :
    |w.high a - w.high c| / max (w.high a) (w.high c) ≤ 5 / 100 ∧
    2 / 100 ≤ (w.high b - (w.high a + w.high c) / 2) / w.high b ∧
    p = hsPattern w a b c := by
  unfold mkHeadShoulders at h
  split_ifs at h with h1 h2 h3
  exact ⟨not_lt.mp h2, not_lt.mp h3, (Option.some.inj h).symm⟩

/-- Every head-and-shoulders candidate arises from a pivot-high triple. -/
theorem mem_headShouldersCandidates {w : Window} {p : DetectedPattern}
    (h : p ∈ headShouldersCandidates w) :
    ∃ a b c, mkHeadShoulders w a b c = some p := by
  unfold headShouldersCandidates at h
  split_ifs at h
  · simp at h
  · rcases List.mem_filterMap.mp h with ⟨⟨a, b, c⟩, _, hmk⟩
    exact ⟨a, b, c, hmk⟩

/-- Unfolding a successful inverse head-and-shoulders candidate. -/
theorem mkInverseHeadShoulders_eq_some {w : Window} {a b c : ℕ} {p : DetectedPattern}
    (h : mkInverseHeadShoulders w a b c = some p) :
    |w.low a - w.low c| / max (w.low a) (w.low c) ≤ 5 / 100 ∧
    2 / 100 ≤ ((w.low a + w.low c) / 2 - w.low b) / ((w.low a + w.low c) / 2) ∧
    p = ihsPattern w a b c := by
  unfold mkInverseHeadShoulders at h
  split_ifs at h with h1 h2 h3
  exact ⟨not_lt.mp h2, not_lt.mp h3, (Option.some.inj h).symm⟩

/-- Every inverse head-and-shoulders candidate arises from a pivot-low
triple. -/
theorem mem_inverseHeadShouldersCandidates {w : Window} {p : DetectedPattern}
    (h : p ∈ inverseHeadShouldersCandidates w) :
    ∃ a b c, mkInverseHeadShoulders w a b c = some p := by
  unfold inverseHeadShouldersCandidates at h
  split_ifs at h
  · simp at h
  · rcases List.mem_filterMap.mp h with ⟨⟨a, b, c⟩, _, hmk⟩
    exact ⟨a, b, c, hmk⟩

/-- The double-top confidence is within `[0, 100]` whenever the tolerance and
depth filters were passed. -/
theorem dtConfidence_bounds {w : Window} {i j : ℕ}
    (h1 : |w.high i - w.high j| / max (w.high i) (w.high j) ≤ 3 / 100)
    (h3 : 2 / 100 ≤ (dtAvgPeak w i j - dtNeckline w i j) / dtAvgPeak w i j) :
    0 ≤ dtConfidence w i j ∧ dtConfidence w i j ≤ 100 := by
  unfold dtConfidence
  refine ⟨le_min ?_ (by norm_num), min_le_right _ _⟩
  have hsym : 0 ≤ 1 - |w.high i - w.high j| / max (w.high i) (w.high j) / (3 / 100) := by
    have hle : |w.high i - w.high j| / max (w.high i) (w.high j) / (3 / 100) ≤ 1 := by
      rw [div_le_one (by norm_num)]
      linarith
    linarith
  have hdep : (1 : ℚ) / 5
      ≤ min ((dtAvgPeak w i j - dtNeckline w i j) / dtAvgPeak w i j / (10 / 100)) 1 := by
    apply le_min _ (by norm_num)
    rw [le_div_iff₀ (by norm_num)]
    linarith
  linarith [hsym, hdep]

/-- The double-bottom confidence is within `[0, 100]` under its filters. -/
theorem dbConfidence_bounds {w : Window} {i j : ℕ}
    (h1 : |w.low i - w.low j| / max (w.low i) (w.low j) ≤ 3 / 100)
    (h3 : 2 / 100 ≤ (dbNeckline w i j - dbAvgTrough w i j) / dbNeckline w i j) :
    0 ≤ dbConfidence w i j ∧ dbConfidence w i j ≤ 100 := by
  unfold dbConfidence
  refine ⟨le_min ?_ (by norm_num), min_le_right _ _⟩
  have hsym : 0 ≤ 1 - |w.low i - w.low j| / max (w.low i) (w.low j) / (3 / 100) := by
    have hle : |w.low i - w.low j| / max (w.low i) (w.low j) / (3 / 100) ≤ 1 := by
      rw [div_le_one (by norm_num)]
      linarith
    linarith
  have hdep : (1 : ℚ) / 5
      ≤ min ((dbNeckline w i j - dbAvgTrough w i j) / dbNeckline w i j / (10 / 100)) 1 := by
    apply le_min _ (by norm_num)
    rw [le_div_iff₀ (by norm_num)]
    linarith
  linarith [hsym, hdep]

/-- The head-and-shoulders confidence is within `[0, 100]` under its
filters. -/
theorem hsConfidence_bounds {w : Window} {a b c : ℕ}
    (h2 : |w.high a - w.high c| / max (w.high a) (w.high c) ≤ 5 / 100)
    (h3 : 2 / 100 ≤ (w.high b - (w.high a + w.high c) / 2) / w.high b) :
    0 ≤ hsConfidence w a b c ∧ hsConfidence w a b c ≤ 100 := by
  unfold hsConfidence
  refine ⟨le_min ?_ (by norm_num), min_le_right _ _⟩
  have hsym : 0 ≤ 1 - |w.high a - w.high c| / max (w.high a) (w.high c) / (5 / 100) := by
    have hle : |w.high a - w.high c| / max (w.high a) (w.high c) / (5 / 100) ≤ 1 := by
      rw [div_le_one (by norm_num)]
      linarith
    linarith
  have hdep : (2 : ℚ) / 5
      ≤ min ((w.high b - (w.high a + w.high c) / 2) / w.high b / (5 / 100)) 1 := by
    apply le_min _ (by norm_num)
    rw [le_div_iff₀ (by norm_num)]
    linarith
  linarith [hsym, hdep]

/-- The inverse head-and-shoulders confidence is within `[0, 100]` under its
filters. -/
theorem ihsConfidence_bounds {w : Window} {a b c : ℕ}
    (h2 : |w.low a - w.low c| / max (w.low a) (w.low c) ≤ 5 / 100)
    (h3 : 2 / 100 ≤ ((w.low a + w.low c) / 2 - w.low b) / ((w.low a + w.low c) / 2)) :
    0 ≤ ihsConfidence w a b c ∧ ihsConfidence w a b c ≤ 100 := by
  unfold ihsConfidence
  refine ⟨le_min ?_ (by norm_num), min_le_right _ _⟩
  have hsym : 0 ≤ 1 - |w.low a - w.low c| / max (w.low a) (w.low c) / (5 / 100) := by
    have hle : |w.low a - w.low c| / max (w.low a) (w.low c) / (5 / 100) ≤ 1 := by
      rw [div_le_one (by norm_num)]
      linarith
    linarith
  have hdep : (2 : ℚ) / 5
      ≤ min (((w.low a + w.low c) / 2 - w.low b) / ((w.low a + w.low c) / 2) / (5 / 100)) 1 := by
    apply le_min _ (by norm_num)
    rw [le_div_iff₀ (by norm_num)]
    linarith
  linarith [hsym, hdep]

/-- Confidence band of every returned double-top pattern. -/
theorem detectDoubleTop_conf {w : Window} {p : DetectedPattern}
    (hp : p ∈ detectDoubleTop w) : 0 ≤ p.confidence ∧ p.confidence ≤ 100 := by
  rcases mem_doubleTopCandidates (List.mem_of_mem_take hp) with ⟨i, j, _, _, _, hmk⟩
  rcases mkDoubleTop_eq_some hmk with ⟨h1, _, h3, hpat⟩
  have hb := dtConfidence_bounds h1 h3
  have he : p.confidence = round1 (dtConfidence w i j) := by rw [hpat]; rfl
  rw [he]
  exact round1_bounds hb.1 hb.2

/-- Confidence band of every returned double-bottom pattern. -/
theorem detectDoubleBottom_conf {w : Window} {p : DetectedPattern}
    (hp : p ∈ detectDoubleBottom w) : 0 ≤ p.confidence ∧ p.confidence ≤ 100 := by
  rcases mem_doubleBottomCandidates (List.mem_of_mem_take hp) with ⟨i, j, _, _, _, hmk⟩
  rcases mkDoubleBottom_eq_some hmk with ⟨h1, _, h3, hpat⟩
  have hb := dbConfidence_bounds h1 h3
  have he : p.confidence = round1 (dbConfidence w i j) := by rw [hpat]; rfl
  rw [he]
  exact round1_bounds hb.1 hb.2

/-- Confidence band of every returned head-and-shoulders pattern. -/
theorem detectHeadShoulders_conf {w : Window} {p : DetectedPattern}
    (hp : p ∈ detectHeadShoulders w) : 0 ≤ p.confidence ∧ p.confidence ≤ 100 := by
  rcases mem_headShouldersCandidates (List.mem_of_mem_take hp) with ⟨a, b, c, hmk⟩
  rcases mkHeadShoulders_eq_some hmk with ⟨h2, h3, hpat⟩
  have hb := hsConfidence_bounds h2 h3
  have he : p.confidence = round1 (hsConfidence w a b c) := by rw [hpat]; rfl
  rw [he]
  exact round1_bounds hb.1 hb.2

/-- Confidence band of every returned inverse head-and-shoulders pattern. -/
theorem detectInverseHeadShoulders_conf {w : Window} {p : DetectedPattern}
    (hp : p ∈ detectInverseHeadShoulders w) : 0 ≤ p.confidence ∧ p.confidence ≤ 100 := by
  rcases mem_inverseHeadShouldersCandidates (List.mem_of_mem_take hp) with ⟨a, b, c, hmk⟩
  rcases mkInverseHeadShoulders_eq_some hmk with ⟨h2, h3, hpat⟩
  have hb := ihsConfidence_bounds h2 h3
  have he : p.confidence = round1 (ihsConfidence w a b c) := by rw [hpat]; rfl
  rw [he]
  exact round1_bounds hb.1 hb.2

/-- Unfolding a successful flag candidate: all `continue` filters passed, in
particular the explicit confidence floor. -/
theorem checkFlag_eq_some {w : Window} {bull : Bool} {ps pe : ℕ} {p : DetectedPattern}
    (h : checkFlag w bull ps pe = some p) :
    40 ≤ flagConfidence w ps pe ∧ p = flagPattern w bull ps pe := by
  unfold checkFlag at h
  split_ifs at h with h1 h2 h3 h4 h5 h6 h7 h8
  exact ⟨not_lt.mp h8, (Option.some.inj h).symm⟩

/-- Every returned flag pattern comes from some accepted pole. -/
theorem mem_detectFlag {w : Window} {bull : Bool} {p : DetectedPattern}
    (h : p ∈ detectFlag w bull) : ∃ ps pe, checkFlag w bull ps pe = some p := by
  unfold detectFlag at h
  have h2 : p ∈ flagCandidates w bull :=
    (List.mem_insertionSort confGE).mp (List.mem_of_mem_take h)
  unfold flagCandidates at h2
  rcases List.mem_filterMap.mp h2 with ⟨ps, _, hfs⟩
  rcases List.exists_of_findSome?_eq_some hfs with ⟨pe, _, hc⟩
  exact ⟨ps, pe, hc⟩

/-- Unfolding a successful pennant candidate. -/
theorem checkPennant_eq_some {w : Window} {ps pe : ℕ} {p : DetectedPattern}
    (h : checkPennant w ps pe = some p) :
    40 ≤ pennantConfidence w ps pe ∧ p = pennantPattern w ps pe := by
  unfold checkPennant at h
  split_ifs at h with h1 h2 h3 h4 h5
  exact ⟨not_lt.mp h5, (Option.some.inj h).symm⟩

/-- Every returned pennant comes from some accepted pole. -/
theorem mem_detectPennant {w : Window} {p : DetectedPattern}
    (h : p ∈ detectPennant w) : ∃ ps pe, checkPennant w ps pe = some p := by
  unfold detectPennant at h
  have h2 : p ∈ pennantCandidates w :=
    (List.mem_insertionSort confGE).mp (List.mem_of_mem_take h)
  unfold pennantCandidates at h2
  rcases List.mem_filterMap.mp h2 with ⟨ps, _, hfs⟩
  rcases List.exists_of_findSome?_eq_some hfs with ⟨pe, _, hc⟩
  exact ⟨ps, pe, hc⟩

/-- Unfolding a successful cup-and-handle candidate. -/
theorem checkCup_eq_some {w : Window} {cs : ℕ} {p : DetectedPattern}
    (h : checkCup w cs = some p) :
    40 ≤ cupConfidence w cs ∧ p = cupPattern w cs := by
  unfold checkCup at h
  split_ifs at h with h1 h2 h3 h4 h5 h6 h7
  exact ⟨not_lt.mp h7, (Option.some.inj h).symm⟩

/-- Every returned cup-and-handle comes from some accepted cup start. -/
theorem mem_detectCupAndHandle {w : Window} {p : DetectedPattern}
    (h : p ∈ detectCupAndHandle w) : ∃ cs, checkCup w cs = some p := by
  unfold detectCupAndHandle at h
  split_ifs at h
  · simp at h
  · have h2 := List.mem_of_mem_take h
    have h3 : ((List.range' 0 ((w.n - 30 + 4) / 5) 5).findSome? (checkCup w)) = some p :=
      Option.mem_def.mp (Option.mem_toList.mp h2)
    rcases List.exists_of_findSome?_eq_some h3 with ⟨cs, _, hc⟩
    exact ⟨cs, hc⟩

/-- Membership in the ascending-triangle output forces the confidence guard
and the record shape. -/
theorem mem_detectAscendingTriangle {w : Window} {p : DetectedPattern}
    (h : p ∈ detectAscendingTriangle w) :
    40 ≤ ascConfidence w ∧ p = ascPattern w := by
  unfold detectAscendingTriangle at h
  split_ifs at h with h1 h2 h3 h4 <;>
    first
      | exact ⟨h4, List.mem_singleton.mp h⟩
      | simp at h

/-- Membership in the descending-triangle output. -/
theorem mem_detectDescendingTriangle {w : Window} {p : DetectedPattern}
    (h : p ∈ detectDescendingTriangle w) :
    40 ≤ descConfidence w ∧ p = descPattern w := by
  unfold detectDescendingTriangle at h
  split_ifs at h with h1 h2 h3 h4 <;>
    first
      | exact ⟨h4, List.mem_singleton.mp h⟩
      | simp at h

/-- Membership in the symmetrical-triangle output. -/
theorem mem_detectSymmetricalTriangle {w : Window} {p : DetectedPattern}
    (h : p ∈ detectSymmetricalTriangle w) :
    40 ≤ symConfidence w ∧ p = symPattern w := by
  unfold detectSymmetricalTriangle at h
  split_ifs at h with h1 h2 h3 h4 <;>
    first
      | exact ⟨h4, List.mem_singleton.mp h⟩
      | simp at h

/-- Membership in the rising-wedge output. -/
theorem mem_detectRisingWedge {w : Window} {p : DetectedPattern}
    (h : p ∈ detectRisingWedge w) :
    40 ≤ risingWedgeConfidence w ∧ p = risingWedgePattern w := by
  unfold detectRisingWedge at h
  split_ifs at h with h1 h2 h3 h4 <;>
    first
      | exact ⟨h4, List.mem_singleton.mp h⟩
      | simp at h

/-- Membership in the falling-wedge output. -/
theorem mem_detectFallingWedge {w : Window} {p : DetectedPattern}
    (h : p ∈ detectFallingWedge w) :
    40 ≤ fallingWedgeConfidence w ∧ p = fallingWedgePattern w := by
  unfold detectFallingWedge at h
  split_ifs at h with h1 h2 h3 h4 <;>
    first
      | exact ⟨h4, List.mem_singleton.mp h⟩
      | simp at h

/-- Confidence band of every returned flag pattern. -/
theorem detectFlag_conf {w : Window} {bull : Bool} {p : DetectedPattern}
    (hp : p ∈ detectFlag w bull) : 40 ≤ p.confidence ∧ p.confidence ≤ 100 := by
  rcases mem_detectFlag hp with ⟨ps, pe, hc⟩
  rcases checkFlag_eq_some hc with ⟨h40, hpat⟩
  have hle : flagConfidence w ps pe ≤ 100 := min_le_right _ _
  have he : p.confidence = round1 (flagConfidence w ps pe) := by rw [hpat]; rfl
  rw [he]
  exact ⟨round1_ge_forty h40, (round1_bounds (by linarith) hle).2⟩

/-- Confidence band of every returned pennant. -/
theorem detectPennant_conf {w : Window} {p : DetectedPattern}
    (hp : p ∈ detectPennant w) : 40 ≤ p.confidence ∧ p.confidence ≤ 100 := by
  rcases mem_detectPennant hp with ⟨ps, pe, hc⟩
  rcases checkPennant_eq_some hc with ⟨h40, hpat⟩
  have hle : pennantConfidence w ps pe ≤ 100 := min_le_right _ _
  have he : p.confidence = round1 (pennantConfidence w ps pe) := by rw [hpat]; rfl
  rw [he]
  exact ⟨round1_ge_forty h40, (round1_bounds (by linarith) hle).2⟩

/-- Confidence band of every returned cup-and-handle. -/
theorem detectCupAndHandle_conf {w : Window} {p : DetectedPattern}
    (hp : p ∈ detectCupAndHandle w) : 40 ≤ p.confidence ∧ p.confidence ≤ 100 := by
  rcases mem_detectCupAndHandle hp with ⟨cs, hc⟩
  rcases checkCup_eq_some hc with ⟨h40, hpat⟩
  have hle : cupConfidence w cs ≤ 100 := min_le_right _ _
  have he : p.confidence = round1 (cupConfidence w cs) := by rw [hpat]; rfl
  rw [he]
  exact ⟨round1_ge_forty h40, (round1_bounds (by linarith) hle).2⟩

/-- Confidence band of every returned ascending triangle. -/
theorem detectAscendingTriangle_conf {w : Window} {p : DetectedPattern}
    (hp : p ∈ detectAscendingTriangle w) : 40 ≤ p.confidence ∧ p.confidence ≤ 100 := by
  rcases mem_detectAscendingTriangle hp with ⟨h40, hpat⟩
  have hle : ascConfidence w ≤ 100 := min_le_right _ _
  have he : p.confidence = round1 (ascConfidence w) := by rw [hpat]; rfl
  rw [he]
  exact ⟨round1_ge_forty h40, (round1_bounds (by linarith) hle).2⟩

/-- Confidence band of every returned descending triangle. -/
theorem detectDescendingTriangle_conf {w : Window} {p : DetectedPattern}
    (hp : p ∈ detectDescendingTriangle w) : 40 ≤ p.confidence ∧ p.confidence ≤ 100 := by
  rcases mem_detectDescendingTriangle hp with ⟨h40, hpat⟩
  have hle : descConfidence w ≤ 100 := min_le_right _ _
  have he : p.confidence = round1 (descConfidence w) := by rw [hpat]; rfl
  rw [he]
  exact ⟨round1_ge_forty h40, (round1_bounds (by linarith) hle).2⟩

/-- Confidence band of every returned symmetrical triangle. -/
theorem detectSymmetricalTriangle_conf {w : Window} {p : DetectedPattern}
    (hp : p ∈ detectSymmetricalTriangle w) : 40 ≤ p.confidence ∧ p.confidence ≤ 100 := by
  rcases mem_detectSymmetricalTriangle hp with ⟨h40, hpat⟩
  have hle : symConfidence w ≤ 100 := min_le_right _ _
  have he : p.confidence = round1 (symConfidence w) := by rw [hpat]; rfl
  rw [he]
  exact ⟨round1_ge_forty h40, (round1_bounds (by linarith) hle).2⟩

/-- Confidence band of every returned rising wedge. -/
theorem detectRisingWedge_conf {w : Window} {p : DetectedPattern}
    (hp : p ∈ detectRisingWedge w) : 40 ≤ p.confidence ∧ p.confidence ≤ 100 := by
  rcases mem_detectRisingWedge hp with ⟨h40, hpat⟩
  have hle : risingWedgeConfidence w ≤ 100 := min_le_right _ _
  have he : p.confidence = round1 (risingWedgeConfidence w) := by rw [hpat]; rfl
  rw [he]
  exact ⟨round1_ge_forty h40, (round1_bounds (by linarith) hle).2⟩

/-- Confidence band of every returned falling wedge. -/
theorem detectFallingWedge_conf {w : Window} {p : DetectedPattern}
    (hp : p ∈ detectFallingWedge w) : 40 ≤ p.confidence ∧ p.confidence ≤ 100 := by
  rcases mem_detectFallingWedge hp with ⟨h40, hpat⟩
  have hle : fallingWedgeConfidence w ≤ 100 := min_le_right _ _
  have he : p.confidence = round1 (fallingWedgeConfidence w) := by rw [hpat]; rfl
  rw [he]
  exact ⟨round1_ge_forty h40, (round1_bounds (by linarith) hle).2⟩

/-- Every pattern produced by `detect_patterns` comes from one requested
detector. -/
theorem mem_detect_patterns {w : Window} {pats : List PatternType} {p : DetectedPattern}
    (h : p ∈ detect_patterns w pats) : ∃ t, p ∈ detectorFor w t := by
  unfold detect_patterns at h
  induction pats with
  | nil => simp [detectPatternsWith] at h
  | cons q l ih =>
    simp only [detectPatternsWith, detectorMap] at h
    rcases List.mem_append.mp h with h | h
    · exact ⟨q, h⟩
    · exact ih h

/-- **C4** Every `DetectedPattern` returned by `detect_patterns` has
confidence between 0 and 100 inclusive, for every window and every requested
pattern list. -/
theorem detect_patterns_confidence (w : Window) (pats : List PatternType)
    (p : DetectedPattern) (hp : p ∈ detect_patterns w pats) :
    0 ≤ p.confidence ∧ p.confidence ≤ 100 := by
  rcases mem_detect_patterns hp with ⟨t, ht⟩
  cases t
  · exact detectDoubleTop_conf ht
  · exact detectDoubleBottom_conf ht
  · exact detectHeadShoulders_conf ht
  · exact detectInverseHeadShoulders_conf ht
  · rcases detectFlag_conf ht with ⟨a, b⟩
    exact ⟨by linarith, b⟩
  · rcases detectFlag_conf ht with ⟨a, b⟩
    exact ⟨by linarith, b⟩
  · rcases detectAscendingTriangle_conf ht with ⟨a, b⟩
    exact ⟨by linarith, b⟩
  · rcases detectDescendingTriangle_conf ht with ⟨a, b⟩
    exact ⟨by linarith, b⟩
  · rcases detectSymmetricalTriangle_conf ht with ⟨a, b⟩
    exact ⟨by linarith, b⟩
  · rcases detectRisingWedge_conf ht with ⟨a, b⟩
    exact ⟨by linarith, b⟩
  · rcases detectFallingWedge_conf ht with ⟨a, b⟩
    exact ⟨by linarith, b⟩
  · rcases detectPennant_conf ht with ⟨a, b⟩
    exact ⟨by linarith, b⟩
  · rcases detectCupAndHandle_conf ht with ⟨a, b⟩
    exact ⟨by linarith, b⟩

/-- Witness for `detect_patterns_confidence` on `wDT` requesting the double
top. -/
theorem detect_patterns_confidence_witness :
    0 ≤ (dtPattern wDT 5 15).confidence ∧ (dtPattern wDT 5 15).confidence ≤ 100 :=
  detect_patterns_confidence wDT [.double_top] (dtPattern wDT 5 15)
    (by
      show dtPattern wDT 5 15 ∈ detectDoubleTop wDT ++ detectPatternsWith (detectorMap wDT) []
      rw [detectDoubleTop_wDT_eq]
      simp [detectPatternsWith])

set_option maxRecDepth 400000 in
/-- Evaluation of the bull-flag detector on `wFlag`. -/
theorem detectBullFlag_wFlag_eq : detectBullFlag wFlag = [flagPattern wFlag true 0 5] := by
  with_unfolding_all decide

/-- **C5** (amended) The nine detectors that apply an explicit confidence
floor — flags, pennant, the three triangles, the two wedges and
cup-and-handle — only return patterns with confidence at least 40; the double
top/bottom and (inverse) head-and-shoulders detectors apply no floor. -/
theorem confidence_floor_amended (w : Window) (p : DetectedPattern)
    (h : p ∈ detectBullFlag w ∨ p ∈ detectBearFlag w ∨ p ∈ detectPennant w ∨
      p ∈ detectAscendingTriangle w ∨ p ∈ detectDescendingTriangle w ∨
      p ∈ detectSymmetricalTriangle w ∨ p ∈ detectRisingWedge w ∨
      p ∈ detectFallingWedge w ∨ p ∈ detectCupAndHandle w) :
    40 ≤ p.confidence := by
  rcases h with h | h | h | h | h | h | h | h | h
  · exact (detectFlag_conf h).1
  · exact (detectFlag_conf h).1
  · exact (detectPennant_conf h).1
  · exact (detectAscendingTriangle_conf h).1
  · exact (detectDescendingTriangle_conf h).1
  · exact (detectSymmetricalTriangle_conf h).1
  · exact (detectRisingWedge_conf h).1
  · exact (detectFallingWedge_conf h).1
  · exact (detectCupAndHandle_conf h).1

set_option maxRecDepth 100000 in
/-- Counterexample to **C5** as stated: the double-top detector has no
confidence floor and returns a pattern of confidence 22.8 < 40 on `wDT`. -/
theorem confidence_floor_counterexample :
    ∃ p ∈ detectDoubleTop wDT, p.confidence < 40 := by
  refine ⟨dtPattern wDT 5 15, ?_, ?_⟩
  · rw [detectDoubleTop_wDT_eq]
    exact List.mem_singleton.mpr rfl
  · with_unfolding_all decide

/-- Witness for `confidence_floor_amended` on the concrete bull flag of
`wFlag`. -/
theorem confidence_floor_amended_witness : 40 ≤ (flagPattern wFlag true 0 5).confidence :=
  confidence_floor_amended wFlag (flagPattern wFlag true 0 5)
    (Or.inl (by rw [detectBullFlag_wFlag_eq]; exact List.mem_singleton.mpr rfl))

/-- **C10** The nine continuation detectors (flags, triangles, wedges,
pennant, cup-and-handle) only ever return FORMING patterns; CONFIRMED can
only come from the double top/bottom and (inverse) head-and-shoulders
detectors. -/
theorem continuation_detectors_forming (w : Window) (p : DetectedPattern)
    (h : p ∈ detectBullFlag w ∨ p ∈ detectBearFlag w ∨ p ∈ detectAscendingTriangle w ∨
      p ∈ detectDescendingTriangle w ∨ p ∈ detectSymmetricalTriangle w ∨
      p ∈ detectRisingWedge w ∨ p ∈ detectFallingWedge w ∨ p ∈ detectPennant w ∨
      p ∈ detectCupAndHandle w) :
    p.status = .forming := by
  rcases h with h | h | h | h | h | h | h | h | h
  · rcases mem_detectFlag h with ⟨ps, pe, hc⟩
    rw [(checkFlag_eq_some hc).2]
    rfl
  · rcases mem_detectFlag h with ⟨ps, pe, hc⟩
    rw [(checkFlag_eq_some hc).2]
    rfl
  · rw [(mem_detectAscendingTriangle h).2]
    rfl
  · rw [(mem_detectDescendingTriangle h).2]
    rfl
  · rw [(mem_detectSymmetricalTriangle h).2]
    rfl
  · rw [(mem_detectRisingWedge h).2]
    rfl
  · rw [(mem_detectFallingWedge h).2]
    rfl
  · rcases mem_detectPennant h with ⟨ps, pe, hc⟩
    rw [(checkPennant_eq_some hc).2]
    rfl
  · rcases mem_detectCupAndHandle h with ⟨cs, hc⟩
    rw [(checkCup_eq_some hc).2]
    rfl

/-- Witness for `continuation_detectors_forming` on the concrete bull flag of
`wFlag`. -/
theorem continuation_detectors_forming_witness :
    (flagPattern wFlag true 0 5).status = .forming :=
  continuation_detectors_forming wFlag (flagPattern wFlag true 0 5)
    (Or.inl (by rw [detectBullFlag_wFlag_eq]; exact List.mem_singleton.mpr rfl))

/-- In a list sorted by descending confidence, every kept element dominates
every dropped element. -/
theorem sorted_take_drop {l : List DetectedPattern} {k : ℕ} (hs : List.Sorted confGE l) :
    ∀ p ∈ l.take k, ∀ q ∈ l.drop k, q.confidence ≤ p.confidence := by
  intro p hp q hq
  have hl : List.Pairwise confGE (l.take k ++ l.drop k) := by
    rw [List.take_append_drop]
    exact hs
  exact (List.pairwise_append.mp hl).2.2 p hp q hq

/-- **C7** (amended) Every detector respects its documented result cap (3 for
double top/bottom, flags and pennant; 2 for the head-and-shoulders variants
and cup-and-handle), but only the flag and pennant detectors sort by
confidence before truncating: their returned candidates dominate every
omitted validated candidate, while the double top/bottom,
head-and-shoulders and cup detectors keep the first candidates in scan
order. -/
theorem result_capping_amended (w : Window) :
    (detectDoubleTop w).length ≤ 3 ∧ (detectDoubleBottom w).length ≤ 3 ∧
    (detectBullFlag w).length ≤ 3 ∧ (detectBearFlag w).length ≤ 3 ∧
    (detectPennant w).length ≤ 3 ∧
    (detectHeadShoulders w).length ≤ 2 ∧ (detectInverseHeadShoulders w).length ≤ 2 ∧
    (detectCupAndHandle w).length ≤ 2 ∧
    (∀ bull : Bool, ∀ p ∈ detectFlag w bull,
      ∀ q ∈ (List.insertionSort confGE (flagCandidates w bull)).drop 3,
        q.confidence ≤ p.confidence) ∧
    (∀ p ∈ detectPennant w,
      ∀ q ∈ (List.insertionSort confGE (pennantCandidates w)).drop 3,
        q.confidence ≤ p.confidence) := by
  refine ⟨List.length_take_le _ _, List.length_take_le _ _, List.length_take_le _ _,
    List.length_take_le _ _, List.length_take_le _ _, List.length_take_le _ _,
    List.length_take_le _ _, ?_, ?_, ?_⟩
  · unfold detectCupAndHandle
    split_ifs
    · simp
    · exact List.length_take_le _ _
  · intro bull
    exact sorted_take_drop (List.sorted_insertionSort confGE _)
  · exact sorted_take_drop (List.sorted_insertionSort confGE _)

set_option maxRecDepth 1000000 in
/-- Counterexample to **C7** as stated: on `wDT4` the double-top detector
truncates in scan order, returning a confidence-31.9 candidate while omitting
a validated confidence-76.1 candidate. -/
theorem result_capping_counterexample :
    ∃ p ∈ detectDoubleTop wDT4, ∃ q ∈ doubleTopCandidates wDT4,
      q ∉ detectDoubleTop wDT4 ∧ p.confidence < q.confidence := by
  with_unfolding_all decide

set_option maxRecDepth 1000000 in
/-- Membership facts of the four-candidate bull-flag window `wFlag4`. -/
theorem bullFlag_wFlag4_facts :
    flagPattern wFlag4 true 0 13 ∈ detectBullFlag wFlag4 ∧
    flagPattern wFlag4 true 9 14
      ∈ (List.insertionSort confGE (flagCandidates wFlag4 true)).drop 3 := by
  with_unfolding_all decide

/-- Witness for `result_capping_amended`: the double-top cap on `wDT4` and
the flag domination property on `wFlag4`. -/
theorem result_capping_amended_witness :
    (detectDoubleTop wDT4).length ≤ 3 ∧
    (flagPattern wFlag4 true 9 14).confidence ≤ (flagPattern wFlag4 true 0 13).confidence :=
  ⟨(result_capping_amended wDT4).1,
    (result_capping_amended wFlag4).2.2.2.2.2.2.2.2.1 true (flagPattern wFlag4 true 0 13)
      bullFlag_wFlag4_facts.1 (flagPattern wFlag4 true 9 14) bullFlag_wFlag4_facts.2⟩

/-- `rmin` of a constant array. -/
theorem rmin_const_fun {c : ℚ} {lo hi : ℕ} (h : lo ≤ hi) : rmin (fun _ => c) lo hi = c :=
  minL_const (sliceIncl_ne_nil h)
    (by intro x hx; rcases List.mem_map.mp hx with ⟨k, _, rfl⟩; rfl)

/-- `rmax` of a constant array. -/
theorem rmax_const_fun {c : ℚ} {lo hi : ℕ} (h : lo ≤ hi) : rmax (fun _ => c) lo hi = c :=
  maxL_const (sliceIncl_ne_nil h)
    (by intro x hx; rcases List.mem_map.mp hx with ⟨k, _, rfl⟩; rfl)

/-- The whole-window price range of a constant window vanishes — the guard
that every triangle and wedge detector tests before dividing. -/
theorem priceRange_const (n : ℕ) (c : ℚ) (vol : ℕ → ℚ) :
    priceRange (constWindow n c vol) = 0 := by
  show rmax (fun _ => c) 0 (n - 1) - rmin (fun _ => c) 0 (n - 1) = 0
  rw [rmax_const_fun (Nat.zero_le _), rmin_const_fun (Nat.zero_le _)]
  ring

/-- On a constant window every double-top candidate pair is rejected: the
trough depth check fails (or the separation check before it). -/
theorem mkDoubleTop_const_none (n : ℕ) (c : ℚ) (vol : ℕ → ℚ) (i j : ℕ) :
    mkDoubleTop (constWindow n c vol) i j = none := by
  unfold mkDoubleTop
  have htol : ¬(|(constWindow n c vol).high i - (constWindow n c vol).high j| /
      max ((constWindow n c vol).high i) ((constWindow n c vol).high j) > 3 / 100) := by
    show ¬(|c - c| / max c c > 3 / 100)
    rw [sub_self, abs_zero, zero_div]
    norm_num
  rw [if_neg htol]
  by_cases hij : j - i < 10
  · rw [if_pos hij]
  · rw [if_neg hij]
    have hnl : dtNeckline (constWindow n c vol) i j = c :=
      minL_const (sliceIncl_ne_nil (by omega))
        (by intro x hx; rcases List.mem_map.mp hx with ⟨k, _, rfl⟩; rfl)
    have hdep : (dtAvgPeak (constWindow n c vol) i j - dtNeckline (constWindow n c vol) i j) /
        dtAvgPeak (constWindow n c vol) i j < 2 / 100 := by
      rw [hnl]
      show ((c + c) / 2 - c) / ((c + c) / 2) < 2 / 100
      rw [show (c + c) / 2 - c = 0 by ring, zero_div]
      norm_num
    rw [if_pos hdep]

/-- On a constant window every double-bottom candidate pair is rejected. -/
theorem mkDoubleBottom_const_none (n : ℕ) (c : ℚ) (vol : ℕ → ℚ) (i j : ℕ) :
    mkDoubleBottom (constWindow n c vol) i j = none := by
  unfold mkDoubleBottom
  have htol : ¬(|(constWindow n c vol).low i - (constWindow n c vol).low j| /
      max ((constWindow n c vol).low i) ((constWindow n c vol).low j) > 3 / 100) := by
    show ¬(|c - c| / max c c > 3 / 100)
    rw [sub_self, abs_zero, zero_div]
    norm_num
  rw [if_neg htol]
  by_cases hij : j - i < 10
  · rw [if_pos hij]
  · rw [if_neg hij]
    have hnl : dbNeckline (constWindow n c vol) i j = c :=
      maxL_const (sliceIncl_ne_nil (by omega))
        (by intro x hx; rcases List.mem_map.mp hx with ⟨k, _, rfl⟩; rfl)
    have hdep : (dbNeckline (constWindow n c vol) i j - dbAvgTrough (constWindow n c vol) i j) /
        dbNeckline (constWindow n c vol) i j < 2 / 100 := by
      rw [hnl]
      show (c - (c + c) / 2) / c < 2 / 100
      rw [show c - (c + c) / 2 = 0 by ring, zero_div]
      norm_num
    rw [if_pos hdep]

/-- On a constant window the head is never strictly above the shoulders. -/
theorem mkHeadShoulders_const_none (n : ℕ) (c : ℚ) (vol : ℕ → ℚ) (a b d : ℕ) :
    mkHeadShoulders (constWindow n c vol) a b d = none := by
  unfold mkHeadShoulders
  have hcond : (constWindow n c vol).high b ≤ (constWindow n c vol).high a ∨
      (constWindow n c vol).high b ≤ (constWindow n c vol).high d := Or.inl (le_refl c)
  rw [if_pos hcond]

/-- On a constant window the inverse head is never strictly below the
shoulders. -/
theorem mkInverseHeadShoulders_const_none (n : ℕ) (c : ℚ) (vol : ℕ → ℚ) (a b d : ℕ) :
    mkInverseHeadShoulders (constWindow n c vol) a b d = none := by
  unfold mkInverseHeadShoulders
  have hcond : (constWindow n c vol).low a ≤ (constWindow n c vol).low b ∨
      (constWindow n c vol).low d ≤ (constWindow n c vol).low b := Or.inl (le_refl c)
  rw [if_pos hcond]

/-- On a constant window the pole move of every flag candidate is zero, so
the directional filter rejects it before any division by the pole height. -/
theorem checkFlag_const_none (n : ℕ) (c : ℚ) (vol : ℕ → ℚ) (bull : Bool) (ps pe : ℕ) :
    checkFlag (constWindow n c vol) bull ps pe = none := by
  have hpm : poleMove (constWindow n c vol) ps pe = 0 := by
    show (c - c) / c = 0
    simp
  unfold checkFlag
  cases bull
  · rw [if_neg (by simp), if_pos ⟨by simp, by rw [hpm]; norm_num⟩]
  · rw [if_pos ⟨by simp, by rw [hpm]; norm_num⟩]

/-- On a constant window the pole move of every pennant candidate is zero. -/
theorem checkPennant_const_none (n : ℕ) (c : ℚ) (vol : ℕ → ℚ) (ps pe : ℕ) :
    checkPennant (constWindow n c vol) ps pe = none := by
  have hpm : poleMove (constWindow n c vol) ps pe = 0 := by
    show (c - c) / c = 0
    simp
  unfold checkPennant
  rw [if_pos (by rw [hpm]; norm_num)]

/-- On a constant window the cup bottom is found at local offset 0 (the
`np.argmin` first-occurrence tie-break), so the arc-shape filter rejects. -/
theorem checkCup_const_none (n : ℕ) (c : ℚ) (vol : ℕ → ℚ) (cs : ℕ) :
    checkCup (constWindow n c vol) cs = none := by
  have hbl : cupBottomLocal (constWindow n c vol) cs = 0 :=
    argminL_const (by intro x hx; rcases List.mem_map.mp hx with ⟨k, _, rfl⟩; rfl)
  unfold checkCup
  rw [if_pos (Or.inl (by rw [hbl]; norm_num))]

/-- **C6** On a constant positive-price window (high = low = close = c at
every bar, any volume) each of the thirteen detectors returns the empty
list; the triangle/wedge division guard `price_range == 0` indeed fires. -/
theorem constant_window_all_empty (n : ℕ) (c : ℚ) (vol : ℕ → ℚ) (hc : 0 < c) :
    detectDoubleTop (constWindow n c vol) = [] ∧
    detectDoubleBottom (constWindow n c vol) = [] ∧
    detectHeadShoulders (constWindow n c vol) = [] ∧
    detectInverseHeadShoulders (constWindow n c vol) = [] ∧
    detectBullFlag (constWindow n c vol) = [] ∧
    detectBearFlag (constWindow n c vol) = [] ∧
    detectAscendingTriangle (constWindow n c vol) = [] ∧
    detectDescendingTriangle (constWindow n c vol) = [] ∧
    detectSymmetricalTriangle (constWindow n c vol) = [] ∧
    detectRisingWedge (constWindow n c vol) = [] ∧
    detectFallingWedge (constWindow n c vol) = [] ∧
    detectPennant (constWindow n c vol) = [] ∧
    detectCupAndHandle (constWindow n c vol) = [] ∧
    priceRange (constWindow n c vol) = 0 := by
  have hpr := priceRange_const n c vol
  have hflag : ∀ bull, flagCandidates (constWindow n c vol) bull = [] := by
    intro bull
    unfold flagCandidates
    apply List.filterMap_eq_nil.mpr
    intro ps _
    apply List.findSome?_eq_none.mpr
    intro pe _
    exact checkFlag_const_none n c vol bull ps pe
  refine ⟨?_, ?_, ?_, ?_, ?_, ?_, ?_, ?_, ?_, ?_, ?_, ?_, ?_, hpr⟩
  · unfold detectDoubleTop doubleTopCandidates
    split_ifs
    · rfl
    · rw [List.filterMap_eq_nil.mpr fun x _ => mkDoubleTop_const_none n c vol x.1 x.2]
      rfl
  · unfold detectDoubleBottom doubleBottomCandidates
    split_ifs
    · rfl
    · rw [List.filterMap_eq_nil.mpr fun x _ => mkDoubleBottom_const_none n c vol x.1 x.2]
      rfl
  · unfold detectHeadShoulders headShouldersCandidates
    split_ifs
    · rfl
    · rw [List.filterMap_eq_nil.mpr fun x _ =>
        mkHeadShoulders_const_none n c vol x.1 x.2.1 x.2.2]
      rfl
  · unfold detectInverseHeadShoulders inverseHeadShouldersCandidates
    split_ifs
    · rfl
    · rw [List.filterMap_eq_nil.mpr fun x _ =>
        mkInverseHeadShoulders_const_none n c vol x.1 x.2.1 x.2.2]
      rfl
  · unfold detectBullFlag detectFlag
    rw [hflag true]
    rfl
  · unfold detectBearFlag detectFlag
    rw [hflag false]
    rfl
  · unfold detectAscendingTriangle
    split_ifs with h1 h2 h3 h4 <;> first | rfl | exact absurd hpr h2
  · unfold detectDescendingTriangle
    split_ifs with h1 h2 h3 h4 <;> first | rfl | exact absurd hpr h2
  · unfold detectSymmetricalTriangle
    split_ifs with h1 h2 h3 h4 <;> first | rfl | exact absurd hpr h2
  · unfold detectRisingWedge
    split_ifs with h1 h2 h3 h4 <;> first | rfl | exact absurd hpr h2
  · unfold detectFallingWedge
    split_ifs with h1 h2 h3 h4 <;> first | rfl | exact absurd hpr h2
  · unfold detectPennant pennantCandidates
    rw [List.filterMap_eq_nil.mpr fun ps _ =>
      List.findSome?_eq_none.mpr fun pe _ => checkPennant_const_none n c vol ps pe]
    rfl
  · unfold detectCupAndHandle
    split_ifs
    · rfl
    · rw [List.findSome?_eq_none.mpr fun cs _ => checkCup_const_none n c vol cs]
      rfl

/-- Witness for `constant_window_all_empty` at a 12-bar constant window. -/
theorem constant_window_all_empty_witness :
    detectDoubleTop (constWindow 12 5 fun _ => 7) = [] ∧
    detectDoubleBottom (constWindow 12 5 fun _ => 7) = [] ∧
    detectHeadShoulders (constWindow 12 5 fun _ => 7) = [] ∧
    detectInverseHeadShoulders (constWindow 12 5 fun _ => 7) = [] ∧
    detectBullFlag (constWindow 12 5 fun _ => 7) = [] ∧
    detectBearFlag (constWindow 12 5 fun _ => 7) = [] ∧
    detectAscendingTriangle (constWindow 12 5 fun _ => 7) = [] ∧
    detectDescendingTriangle (constWindow 12 5 fun _ => 7) = [] ∧
    detectSymmetricalTriangle (constWindow 12 5 fun _ => 7) = [] ∧
    detectRisingWedge (constWindow 12 5 fun _ => 7) = [] ∧
    detectFallingWedge (constWindow 12 5 fun _ => 7) = [] ∧
    detectPennant (constWindow 12 5 fun _ => 7) = [] ∧
    detectCupAndHandle (constWindow 12 5 fun _ => 7) = [] ∧
    priceRange (constWindow 12 5 fun _ => 7) = 0 :=
  constant_window_all_empty 12 5 (fun _ => 7) (by norm_num)
